import Mathlib

/-!
Shallow embedding of the node-group manager (`manage_node_groups.py`).

The embedding models, faithfully to the Python source:
* the scaling-tag codec: `_parse_scaling_values`, `_parse_aws_format`,
  `_parse_gcp_format`, `_validate_scaling_values`, and the tag/label
  formatting done by `_scale_down_aws_asg` / `_scale_down_gcp_node_pool`;
* the per-resource scale-down / restore actions for both providers,
  including the `ScalingOperation` records appended by `_add_operation`
  and the gateway mutations issued in live (non-dry-run) mode;
* the GKE operation waiter `_wait_for_operation`;
* the sequential composition of per-resource processing into a run.

Python strings are modelled as `List Char`; Python `int` as `Int`
(arbitrary precision, no overflow).  Python exceptions raised and caught
inside the parsing code are modelled with `Except ParseError`; the
distinct internal raise sites are kept as distinct `ParseError`
constructors (the outer `except` clause of `_parse_scaling_values`
re-raises every failure with one uniform message, but which internal
check fired is still faithfully recorded here).  The cloud gateway is an
external collaborator of the program (spec section 6): its mutations are
modelled as emitted call/event lists and a deterministic state update of
the resource, matching the documented meaning of each API call.
-/

deriving instance DecidableEq for Except

/-- Model of `str.isdigit` restricted to ASCII, which is the only range the
program ever produces or consumes in tag values. -/
def isDigitChar (c : Char) : Bool := decide (48 ≤ c.toNat ∧ c.toNat ≤ 57)

/-- Model of Python whitespace (as recognised by `str.strip`). -/
def isSpaceChar (c : Char) : Bool :=
  decide (c.toNat = 32 ∨ c.toNat = 9 ∨ c.toNat = 10 ∨ c.toNat = 13 ∨ c.toNat = 11 ∨ c.toNat = 12)

/-- Model of `str.lower` on one character (ASCII range, as used by the tag codec). -/
def lowerChar (c : Char) : Char :=
  if 65 ≤ c.toNat ∧ c.toNat ≤ 90 then Char.ofNat (c.toNat + 32) else c

/-- Model of `str.strip()`: drop whitespace from both ends. -/
def pyStrip (s : List Char) : List Char :=
  ((s.dropWhile isSpaceChar).reverse.dropWhile isSpaceChar).reverse

/-- Model of `str.startswith`. -/
def isPrefixC : List Char → List Char → Bool
  | [], _ => true
  | _ :: _, [] => false
  | p :: ps, c :: cs => if p = c then isPrefixC ps cs else false

/-- Model of the Python substring test `pat in s`. -/
def hasSub (pat : List Char) : List Char → Bool
  | [] => pat.isEmpty
  | c :: cs => isPrefixC pat (c :: cs) || hasSub pat cs

/-- Model of the Python character test `c in s` for a one-character pattern. -/
def containsChar (c : Char) (s : List Char) : Bool := s.any fun x => x = c

/-- Auxiliary for `splitOnC`: accumulates the current field in reverse. -/
def splitOnAux (c : Char) : List Char → List Char → List (List Char)
  | [], acc => [acc.reverse]
  | x :: xs, acc =>
    if x = c then acc.reverse :: splitOnAux c xs [] else splitOnAux c xs (x :: acc)

/-- Model of `str.split(sep)` for a one-character separator. -/
def splitOnC (c : Char) (s : List Char) : List (List Char) := splitOnAux c s []

/-- Model of `str.split(sep, 1)` followed by unpacking into two variables:
`none` models the `ValueError` raised when the separator is absent. -/
def splitFirst (c : Char) : List Char → Option (List Char × List Char)
  | [] => none
  | x :: xs =>
    if x = c then some ([], xs)
    else
      match splitFirst c xs with
      | some (a, b) => some (x :: a, b)
      | none => none

/-- Value of a decimal digit character. -/
def digitVal (c : Char) : Nat := c.toNat - 48

/-- Decimal value of a digit string (most significant digit first). -/
def digitsToNat (ds : List Char) : Nat := ds.foldl (fun a c => 10 * a + digitVal c) 0

/-- The decimal digit character for `d` (`d < 10`; total by clamping to `'9'`). -/
def digitChar (d : Nat) : Char :=
  match d with
  | 0 => '0' | 1 => '1' | 2 => '2' | 3 => '3' | 4 => '4'
  | 5 => '5' | 6 => '6' | 7 => '7' | 8 => '8' | _ => '9'

/-- Fuel-indexed decimal rendering of a natural number (fuel `> n` suffices). -/
def natReprAux : Nat → Nat → List Char
  | 0, _ => []
  | fuel + 1, n =>
    if n < 10 then [digitChar n] else natReprAux fuel (n / 10) ++ [digitChar (n % 10)]

/-- Decimal rendering of a natural number, as produced by a Python f-string. -/
def natRepr (n : Nat) : List Char := natReprAux (n + 1) n

/-- Decimal rendering of a Python `int` inside an f-string. -/
def intRepr (i : Int) : List Char :=
  if i < 0 then '-' :: natRepr i.natAbs else natRepr i.natAbs

/-- Whether every character of `s` is a decimal digit. -/
def allDigits (s : List Char) : Bool := s.all isDigitChar

/-- Model of Python `int(s)` on a string: optional sign followed by at least one
digit (after stripping whitespace); `none` models the `ValueError`. -/
def pyInt (s0 : List Char) : Option Int :=
  match pyStrip s0 with
  | [] => none
  | c :: rest =>
    if c = '-' then
      if rest ≠ [] ∧ allDigits rest = true then some (-(digitsToNat rest : Int)) else none
    else if c = '+' then
      if rest ≠ [] ∧ allDigits rest = true then some ((digitsToNat rest : Int)) else none
    else if allDigits (c :: rest) = true then some ((digitsToNat (c :: rest) : Int))
    else none

/-- The three scaling fields tracked by the parsers (`values` dict keys). -/
inductive ScalingField
  | maxSize
  | minSize
  | desiredCapacity
deriving DecidableEq, Fintype

/-- Which of the four validation rules of `_validate_scaling_values` fired. -/
inductive RangeViolation
  | negativeValue
  | maxTooLarge
  | minAboveMax
  | desiredOutOfRange
deriving DecidableEq

/-- The distinct failure modes of the codec.  In the Python source each is a
distinct internal `raise ValueError(...)` site; the outer handler of
`_parse_scaling_values` re-raises them all with one uniform message, so the
constructor records which internal site fired. -/
inductive ParseError
  | unsupportedFormat
  | missingFields (missing : List ScalingField)
  | invalidRange (detail : RangeViolation)
  | intConversion
deriving DecidableEq

/-- Boolean test: is the error an `invalidRange`? -/
def ParseError.isInvalidRange : ParseError → Bool
  | .invalidRange _ => true
  | _ => false

/-- Boolean test: is the error a `missingFields`? -/
def ParseError.isMissingFields : ParseError → Bool
  | .missingFields _ => true
  | _ => false

/-- Boolean test: is the error an `unsupportedFormat`? -/
def ParseError.isUnsupportedFormat : ParseError → Bool
  | .unsupportedFormat => true
  | _ => false

/-- The `values` dict of the parsers while being filled (each key optional). -/
structure PVals where
  max? : Option Int := none
  min? : Option Int := none
  desired? : Option Int := none
deriving DecidableEq

/-- The completed `values` dict: all three fields present. -/
structure Vals where
  vmax : Int
  vmin : Int
  vdesired : Int
deriving DecidableEq

/-- Which field (if any) one `;`-separated parameter of the AWS keyed format
assigns, and to what value — the body of the loop of `_parse_aws_format`.
`none` models every `continue` path: blank parameter, no `=` (unpacking
`ValueError`), unrecognised key, or `int(val)` failure. -/
def awsParamField (param0 : List Char) : Option (ScalingField × Int) :=
  let param := pyStrip param0
  if param.isEmpty then none
  else
    match splitFirst '=' param with
    | none => none
    | some (key0, val0) =>
      let key := (pyStrip key0).map lowerChar
      let val := pyStrip val0
      if hasSub ['m', 'a', 'x', 's', 'i', 'z', 'e'] key ||
          (isPrefixC ['m', 'a', 'x'] key && hasSub ['s', 'i', 'z', 'e'] key) then
        (pyInt val).map fun n => (ScalingField.maxSize, n)
      else if hasSub ['m', 'i', 'n', 's', 'i', 'z', 'e'] key ||
          (isPrefixC ['m', 'i', 'n'] key && hasSub ['s', 'i', 'z', 'e'] key) then
        (pyInt val).map fun n => (ScalingField.minSize, n)
      else if hasSub ['d', 'e', 's', 'i', 'r', 'e', 'd', 'c', 'a', 'p', 'a', 'c', 'i', 't', 'y'] key ||
          (hasSub ['d', 'e', 's', 'i', 'r', 'e', 'd'] key &&
            hasSub ['c', 'a', 'p', 'a', 'c', 'i', 't', 'y'] key) then
        (pyInt val).map fun n => (ScalingField.desiredCapacity, n)
      else none

/-- The dict assignment `values[k] = n`: a later assignment to the same key
overwrites an earlier one; `none` is the `continue` path. -/
def setFieldOpt (vals : PVals) : Option (ScalingField × Int) → PVals
  | some (.maxSize, n) => { vals with max? := some n }
  | some (.minSize, n) => { vals with min? := some n }
  | some (.desiredCapacity, n) => { vals with desired? := some n }
  | none => vals

/-- One iteration of the `_parse_aws_format` loop: a later assignment to the
same dict key overwrites an earlier one. -/
def awsStep (vals : PVals) (param0 : List Char) : PVals :=
  setFieldOpt vals (awsParamField param0)

/-- Read one field of the partially-filled `values` dict. -/
def pvalsGet (f : ScalingField) (v : PVals) : Option Int :=
  match f with
  | .maxSize => v.max?
  | .minSize => v.min?
  | .desiredCapacity => v.desired?

/-- Model of `_parse_aws_format` (the input is already lower-cased by the
caller).  The `len(values) != 3` check fails exactly when some key was never
assigned; the missing-field list is built in the source's order. -/
def parseAwsFormat (value : List Char) : Except ParseError Vals :=
  let vals := (splitOnC ';' value).foldl awsStep {}
  match vals.max?, vals.min?, vals.desired? with
  | some mx, some mn, some ds => .ok ⟨mx, mn, ds⟩
  | mx?, mn?, ds? =>
    .error (.missingFields
      ((if mx?.isNone then [ScalingField.maxSize] else []) ++
       (if mn?.isNone then [ScalingField.minSize] else []) ++
       (if ds?.isNone then [ScalingField.desiredCapacity] else [])))

/-- Which field (if any) one `-`-separated part of the GCP dashed format
matches, paired with the result of `int(''.join(filter(str.isdigit, part)))`;
the inner `Option Int` is `none` when that `int('')` call raises (that
`ValueError` is NOT caught inside `_parse_gcp_format`). -/
def gcpPartField (part0 : List Char) : Option (ScalingField × Option Int) :=
  let part := pyStrip part0
  if hasSub ['m', 'a', 'x'] part then
    some (ScalingField.maxSize, pyInt (part.filter isDigitChar))
  else if hasSub ['m', 'i', 'n'] part then
    some (ScalingField.minSize, pyInt (part.filter isDigitChar))
  else if hasSub ['d', 'e', 's', 'i', 'r', 'e', 'd'] part then
    some (ScalingField.desiredCapacity, pyInt (part.filter isDigitChar))
  else none

/-- The successful-assignment view of one dashed part: the field and value it
assigns when the digit extraction succeeds, `none` otherwise. -/
def gcpParamValue (part0 : List Char) : Option (ScalingField × Int) :=
  match gcpPartField part0 with
  | some (f, some n) => some (f, n)
  | _ => none

/-- One iteration of the `_parse_gcp_format` loop; an uncaught `int('')`
failure aborts the whole parse. -/
def gcpStep (vals : PVals) (part0 : List Char) : Except ParseError PVals :=
  match gcpPartField part0 with
  | none => .ok vals
  | some (_, none) => .error .intConversion
  | some (.maxSize, some n) => .ok { vals with max? := some n }
  | some (.minSize, some n) => .ok { vals with min? := some n }
  | some (.desiredCapacity, some n) => .ok { vals with desired? := some n }

/-- The loop of `_parse_gcp_format`: an error from any part (the uncaught
`int('')`) aborts the whole parse, as the Python exception does. -/
def gcpFold : PVals → List (List Char) → Except ParseError PVals
  | vals, [] => .ok vals
  | vals, part :: rest =>
    match gcpStep vals part with
    | .error e => .error e
    | .ok vals2 => gcpFold vals2 rest

/-- Model of `_parse_gcp_format` (input already lower-cased by the caller). -/
def parseGcpFormat (value : List Char) : Except ParseError Vals :=
  match gcpFold {} (splitOnC '-' value) with
  | .error e => .error e
  | .ok vals =>
    match vals.max?, vals.min?, vals.desired? with
    | some mx, some mn, some ds => .ok ⟨mx, mn, ds⟩
    | _, _, _ => .error (.missingFields [])

/-- Model of `_validate_scaling_values`: the four checks in source order.
No clamping — a violation is always an error. -/
def validateScalingValues (v : Vals) : Except ParseError Unit :=
  if v.vmax < 0 ∨ v.vmin < 0 ∨ v.vdesired < 0 then
    .error (.invalidRange .negativeValue)
  else if v.vmax > 1000 then
    .error (.invalidRange .maxTooLarge)
  else if v.vmin > v.vmax then
    .error (.invalidRange .minAboveMax)
  else if ¬(v.vmin ≤ v.vdesired ∧ v.vdesired ≤ v.vmax) then
    .error (.invalidRange .desiredOutOfRange)
  else
    .ok ()

/-- Format detection of `_parse_scaling_values`: `;` means AWS keyed format,
else `-` means GCP dashed format, else the tag format is unsupported. -/
def parseStage (nv : List Char) : Except ParseError Vals :=
  if containsChar ';' nv then parseAwsFormat nv
  else if containsChar '-' nv then parseGcpFormat nv
  else .error .unsupportedFormat

/-- Model of `_parse_scaling_values`: lower-case, detect format, parse,
validate, and return `(max_size, desired_capacity, min_size)` in the
source's tuple order. -/
def parseScalingValues (tagValue : List Char) : Except ParseError (Int × Int × Int) :=
  match parseStage (tagValue.map lowerChar) with
  | .error e => .error e
  | .ok v =>
    match validateScalingValues v with
    | .error e => .error e
    | .ok _ => .ok (v.vmax, v.vdesired, v.vmin)

/-- The tag value written by `_scale_down_aws_asg`:
`f"MaxSize={current_max};DesiredCapacity={current_desired};MinSize={current_min}"`. -/
def awsTagValue (mn mx ds : Int) : List Char :=
  ['M', 'a', 'x', 'S', 'i', 'z', 'e', '='] ++ intRepr mx ++
    ';' :: (['D', 'e', 's', 'i', 'r', 'e', 'd', 'C', 'a', 'p', 'a', 'c', 'i', 't', 'y', '='] ++
      intRepr ds ++
        ';' :: (['M', 'i', 'n', 'S', 'i', 'z', 'e', '='] ++ intRepr mn))

/-- The label value written by `_scale_down_gcp_node_pool`:
`f"maxsize{current_max}-desiredcapacity{current_desired}-minsize{current_min}"`. -/
def gcpLabelValue (mn mx ds : Int) : List Char :=
  ['m', 'a', 'x', 's', 'i', 'z', 'e'] ++ intRepr mx ++
    '-' :: (['d', 'e', 's', 'i', 'r', 'e', 'd', 'c', 'a', 'p', 'a', 'c', 'i', 't', 'y'] ++
      intRepr ds ++
        '-' :: (['m', 'i', 'n', 's', 'i', 'z', 'e'] ++ intRepr mn))

/-- The legacy three-part dashed payload named in the docstring of
`_parse_scaling_values`: `maxsizeX-minsizeY-desiredsizeZ`. -/
def legacyGcpPayload (x y z : Int) : List Char :=
  ['m', 'a', 'x', 's', 'i', 'z', 'e'] ++ intRepr x ++
    '-' :: (['m', 'i', 'n', 's', 'i', 'z', 'e'] ++ intRepr y ++
      '-' :: (['d', 'e', 's', 'i', 'r', 'e', 'd', 's', 'i', 'z', 'e'] ++ intRepr z))

/-- The two marker payload styles: keyed (AWS native) and dashed (GCP native). -/
inductive PayloadStyle
  | keyed
  | dashed
deriving DecidableEq

/-- Format a capacity triple in the given style, exactly as the two
scale-down functions do. -/
def formatTriple (style : PayloadStyle) (mn mx ds : Int) : List Char :=
  match style with
  | .keyed => awsTagValue mn mx ds
  | .dashed => gcpLabelValue mn mx ds

/-- The `CloudProvider` enum of the source. -/
inductive CloudProviderM
  | aws
  | gcp
deriving DecidableEq

/-- The `ScalingOperation` dataclass of the source, field for field. -/
structure ScalingOperation where
  resource_name : List Char
  current_size : Int
  target_size : Int
  min_size : Int
  max_size : Int
  provider : CloudProviderM
deriving DecidableEq

/-- Snapshot of one AWS Auto Scaling Group as read by the manager: the three
capacity bounds and the `OffHoursPrevious` tag value, when present. -/
structure AsgState where
  name : List Char
  minSize : Int
  maxSize : Int
  desiredCapacity : Int
  offHoursTag : Option (List Char)
deriving DecidableEq

/-- The AWS gateway mutations the manager can issue, in issue order. -/
inductive AwsCall
  | createOrUpdateTags (asgName tagValue : List Char)
  | updateAutoScalingGroup (asgName : List Char) (mn mx ds : Int)
  | deleteTags (asgName : List Char)
deriving DecidableEq

/-- Result of one per-ASG action: whether it was processed (the `bool`
returned by `_process_aws_asg`), the `ScalingOperation` records appended,
the gateway mutations issued, and the ASG's resulting cloud-side state. -/
structure AwsStepResult where
  processed : Bool
  ops : List ScalingOperation
  calls : List AwsCall
  state : AsgState
deriving DecidableEq

/-- Model of `_scale_down_aws_asg`: no-op when already at zero, otherwise
record the operation and (in live mode) save the state tag and zero the
group.  The resulting state reflects the documented effect of the two
gateway calls: tag written, all three bounds zero. -/
def scaleDownAwsAsg (dryRun : Bool) (asg : AsgState) : AwsStepResult :=
  if asg.desiredCapacity = 0 ∧ asg.minSize = 0 ∧ asg.maxSize = 0 then
    ⟨false, [], [], asg⟩
  else
    let tagValue := awsTagValue asg.minSize asg.maxSize asg.desiredCapacity
    let op : ScalingOperation :=
      ⟨asg.name, asg.desiredCapacity, 0, asg.minSize, asg.maxSize, .aws⟩
    if dryRun then ⟨true, [op], [], asg⟩
    else
      ⟨true, [op],
        [.createOrUpdateTags asg.name tagValue, .updateAutoScalingGroup asg.name 0 0 0],
        { asg with minSize := 0, maxSize := 0, desiredCapacity := 0,
                   offHoursTag := some tagValue }⟩

/-- Model of the restore branch of `_process_aws_asg`: nothing to do without
the `OffHoursPrevious` tag; a parse failure is a per-resource failure with no
record; otherwise record the operation and (live) restore the bounds and
delete the tag. -/
def restoreAwsAsg (dryRun : Bool) (asg : AsgState) : AwsStepResult :=
  match asg.offHoursTag with
  | none => ⟨false, [], [], asg⟩
  | some payload =>
    match parseScalingValues payload with
    | .error _ => ⟨false, [], [], asg⟩
    | .ok (mx, ds, mn) =>
      let op : ScalingOperation := ⟨asg.name, asg.desiredCapacity, ds, mn, mx, .aws⟩
      if dryRun then ⟨true, [op], [], asg⟩
      else
        ⟨true, [op],
          [.updateAutoScalingGroup asg.name mn mx ds, .deleteTags asg.name],
          { asg with minSize := mn, maxSize := mx, desiredCapacity := ds,
                     offHoursTag := none }⟩

/-- Model of `_process_aws_asg`: dispatch on the run mode. -/
def processAwsAsg (scaleDown dryRun : Bool) (asg : AsgState) : AwsStepResult :=
  if scaleDown then scaleDownAwsAsg dryRun asg else restoreAwsAsg dryRun asg

/-- Sequential model of the per-ASG fan-out of `_manage_aws_node_groups`:
each matching ASG is processed to completion and the operation records,
gateway calls and processed count are aggregated.  (The source uses a
bounded thread pool; resources are independent, so the sequential order
models one deterministic interleaving.) -/
def runAwsAsgs (scaleDown dryRun : Bool) :
    List AsgState → List ScalingOperation × List AwsCall × Nat
  | [] => ([], [], 0)
  | asg :: rest =>
    let r := processAwsAsg scaleDown dryRun asg
    let acc := runAwsAsgs scaleDown dryRun rest
    (r.ops ++ acc.1, r.calls ++ acc.2.1, (if r.processed then 1 else 0) + acc.2.2)

/-- Snapshot of one GKE node pool as read by the manager: autoscaling
configuration, current node count, the `offhoursprevious` label when
present, and the backing instance-group URLs. -/
structure GcpNodePool where
  name : List Char
  autoscalingEnabled : Bool
  minNodeCount : Int
  maxNodeCount : Int
  initialNodeCount : Int
  offHoursLabel : Option (List Char)
  instanceGroupUrls : List (List Char)
deriving DecidableEq

/-- The GCP gateway interactions of one node-pool action, in issue order.
`waitForOp` is one `_wait_for_operation` call on the operation returned by
the immediately preceding mutation; the instance-group resize returns a
long-running operation that the source never waits on, so it is never
followed by a `waitForOp` of its own. -/
inductive GcpEvent
  | updateNodePoolLabels (offHoursValue : Option (List Char))
  | setNodePoolSize (n : Int)
  | setNodePoolAutoscaling (enabled : Bool) (mn mx : Int)
  | resizeInstanceGroup (zone igmName : List Char) (size : Int)
  | waitForOp
deriving DecidableEq

/-- Model of `_resize_single_instance_group`: parse the instance-group URL
(zone at index 8, name last); malformed URLs are skipped with a warning;
dry run only logs.  The returned resize operation is not waited on. -/
def resizeSingleInstanceGroup (dryRun : Bool) (url : List Char) (targetSize : Int) :
    List GcpEvent :=
  let urlParts := splitOnC '/' url
  if urlParts.length < 9 then []
  else
    let zone := (urlParts.get? 8).getD []
    let igmName := urlParts.getLast!
    if dryRun then [] else [.resizeInstanceGroup zone igmName targetSize]

/-- Model of `_resize_instance_groups`: one resize per backing instance
group.  (With several URLs the source fans them out over a thread pool;
the list order models one deterministic interleaving, and every resize
call has returned before this function returns.) -/
def resizeInstanceGroups (dryRun : Bool) (pool : GcpNodePool) (targetSize : Int) :
    List GcpEvent :=
  (pool.instanceGroupUrls.map fun url =>
    resizeSingleInstanceGroup dryRun url targetSize).flatten

/-- Model of `_execute_gcp_scaling` (only ever invoked in live mode): set the
pool size and wait; set autoscaling (disabled when `min = max = 0`) and
wait; if a pool was supplied and the target is positive, resize the backing
instance groups (not waited on); finally, if requested, remove the
`offhoursprevious` label and wait. -/
def executeGcpScaling (dryRun : Bool) (desired mn mx : Int) (removeLabel : Bool)
    (poolForResize : Option GcpNodePool) : List GcpEvent :=
  [GcpEvent.setNodePoolSize desired, .waitForOp] ++
    (if mn = 0 ∧ mx = 0 then [GcpEvent.setNodePoolAutoscaling false 0 0]
     else [GcpEvent.setNodePoolAutoscaling true mn mx]) ++
    [GcpEvent.waitForOp] ++
    (match poolForResize with
     | some pool => if desired > 0 then resizeInstanceGroups dryRun pool desired else []
     | none => []) ++
    (if removeLabel then [GcpEvent.updateNodePoolLabels none, .waitForOp] else [])

/-- Result of one per-node-pool action, mirroring `AwsStepResult`. -/
structure GcpStepResult where
  processed : Bool
  ops : List ScalingOperation
  events : List GcpEvent
  state : GcpNodePool
deriving DecidableEq

/-- The current (min, max) bounds a scale-down reads from a pool: the
autoscaling bounds when autoscaling is enabled, else the node count. -/
def gcpCurrentMin (pool : GcpNodePool) : Int :=
  if pool.autoscalingEnabled then pool.minNodeCount else pool.initialNodeCount

/-- Companion of `gcpCurrentMin` for the max bound. -/
def gcpCurrentMax (pool : GcpNodePool) : Int :=
  if pool.autoscalingEnabled then pool.maxNodeCount else pool.initialNodeCount

/-- Model of `_scale_down_gcp_node_pool`: no-op when already at zero,
otherwise record the operation and (live) save the label and wait, scale
to zero via `_execute_gcp_scaling`, and resize the backing instance groups
to zero.  The resulting state reflects the documented effect of the
mutations: label written, size zero, autoscaling disabled. -/
def scaleDownGcpNodePool (dryRun : Bool) (pool : GcpNodePool) : GcpStepResult :=
  let currentMin := gcpCurrentMin pool
  let currentMax := gcpCurrentMax pool
  let currentDesired := pool.initialNodeCount
  if currentDesired = 0 ∧ currentMin = 0 ∧ currentMax = 0 then
    ⟨false, [], [], pool⟩
  else
    let labelValue := gcpLabelValue currentMin currentMax currentDesired
    let op : ScalingOperation := ⟨pool.name, currentDesired, 0, currentMin, currentMax, .gcp⟩
    if dryRun then ⟨true, [op], [], pool⟩
    else
      ⟨true, [op],
        [GcpEvent.updateNodePoolLabels (some labelValue), .waitForOp] ++
          executeGcpScaling dryRun 0 0 0 false none ++
          resizeInstanceGroups dryRun pool 0,
        { pool with autoscalingEnabled := false, initialNodeCount := 0,
                    offHoursLabel := some labelValue }⟩

/-- Model of the restore branch of `_process_gcp_node_pool`: nothing to do
without the `offhoursprevious` label; a parse failure is a per-resource
failure with no record; otherwise record the operation and (live) run
`_execute_gcp_scaling` with label removal.  The resulting state reflects
the documented effect of the mutations. -/
def restoreGcpNodePool (dryRun : Bool) (pool : GcpNodePool) : GcpStepResult :=
  match pool.offHoursLabel with
  | none => ⟨false, [], [], pool⟩
  | some payload =>
    match parseScalingValues payload with
    | .error _ => ⟨false, [], [], pool⟩
    | .ok (mx, ds, mn) =>
      let op : ScalingOperation := ⟨pool.name, pool.initialNodeCount, ds, mn, mx, .gcp⟩
      if dryRun then ⟨true, [op], [], pool⟩
      else
        ⟨true, [op],
          executeGcpScaling dryRun ds mn mx true (some pool),
          { pool with autoscalingEnabled := ¬(mn = 0 ∧ mx = 0),
                      minNodeCount := mn, maxNodeCount := mx,
                      initialNodeCount := ds, offHoursLabel := none }⟩

/-- Does every mutation event of a trace get awaited before the next event,
i.e. is every non-wait event immediately followed by a `waitForOp` (or is
it the final event only if it is itself a wait)?  This is the "each step is
awaited to completion before the next begins" reading of the trace. -/
def everyStepAwaited : List GcpEvent → Bool
  | [] => true
  | [e] => e = GcpEvent.waitForOp
  | e :: e' :: rest =>
    (if e = GcpEvent.waitForOp then true else decide (e' = GcpEvent.waitForOp)) &&
      everyStepAwaited (e' :: rest)

/-- The GKE operation status values handled by `_wait_for_operation`
(`STATUS_UNSPECIFIED=0, PENDING=1, RUNNING=2, DONE=3, ABORTING=4`, plus
unknown codes). -/
inductive OpStatus
  | unspecified
  | pending
  | running
  | done
  | aborting
  | unknown (code : Int)
deriving DecidableEq

/-- Caller-visible outcome of `_wait_for_operation`.  The function is typed
`-> None` and executes a bare `return` on both the `DONE` and the `ABORTING`
paths (the two differ only in a log line), so the only distinction a caller
can observe is a normal return versus the `TimeoutError` raised after the
deadline. -/
inductive WaitResult
  | returned
  | timedOut
deriving DecidableEq

/-- Loop of `_wait_for_operation` in discrete time: `poll k` is the status
seen by the `k`-th poll; every non-terminal status sleeps for the fixed
5-second interval, so the elapsed time before poll `k` is `5 * k`.  The
loop runs while the elapsed time is below the timeout.  The fuel argument
only forces termination and is never exhausted when it exceeds
`timeoutSeconds`, since each iteration adds 5 seconds of elapsed time. -/
def waitAux (poll : Nat → OpStatus) (timeoutSeconds : Nat) : Nat → Nat → WaitResult
  | 0, _ => .timedOut
  | fuel + 1, k =>
    if 5 * k < timeoutSeconds then
      match poll k with
      | .done => .returned
      | .aborting => .returned
      | _ => waitAux poll timeoutSeconds fuel (k + 1)
    else .timedOut

/-- Model of `_wait_for_operation` over an abstract poll function. -/
def waitForOperation (poll : Nat → OpStatus) (timeoutSeconds : Nat) : WaitResult :=
  waitAux poll timeoutSeconds (timeoutSeconds + 1) 0

/-- The violation detail `_validate_scaling_values` reports first for a
given out-of-range triple, in the source's check order. -/
def rangeViolationOf (mx mn ds : Int) : RangeViolation :=
  if mx < 0 ∨ mn < 0 ∨ ds < 0 then .negativeValue
  else if mx > 1000 then .maxTooLarge
  else if mn > mx then .minAboveMax
  else .desiredOutOfRange

/-- Was some parameter of the keyed payload successfully parsed as an
assignment to `field`? -/
def keyedFieldFound (field : ScalingField) (value : List Char) : Bool :=
  (splitOnC ';' value).any fun p =>
    match awsParamField p with
    | some (f, _) => f = field
    | none => false

/-- Was some part of the dashed payload matched to `field` with a successful
digit extraction? -/
def dashedFieldFound (field : ScalingField) (value : List Char) : Bool :=
  (splitOnC '-' value).any fun p =>
    match gcpPartField p with
    | some (f, some _) => f = field
    | _ => false

/-! ## Character and digit-string lemmas -/

theorem isSpaceChar_of_digit {c : Char} (h : isDigitChar c = true) : isSpaceChar c = false := by
  simp [isDigitChar] at h
  simp [isSpaceChar]
  omega

theorem digit_ne {c d : Char} (hc : isDigitChar c = true) (hd : isDigitChar d = false) :
    c ≠ d := by
  intro h
  rw [h] at hc
  rw [hc] at hd
  exact Bool.noConfusion hd

theorem isDigitChar_digitChar (d : Nat) : isDigitChar (digitChar d) = true := by
  unfold digitChar
  split <;> decide

theorem digitVal_digitChar {d : Nat} (h : d < 10) : digitVal (digitChar d) = d := by
  interval_cases d <;> decide

theorem natReprAux_mem_digit :
    ∀ fuel n, ∀ c ∈ natReprAux fuel n, isDigitChar c = true := by
  intro fuel
  induction fuel with
  | zero => intro n c hc; simp [natReprAux] at hc
  | succ fuel ih =>
    intro n c hc
    rw [natReprAux] at hc
    by_cases h : n < 10
    · rw [if_pos h] at hc
      simp at hc
      subst hc
      exact isDigitChar_digitChar n
    · rw [if_neg h] at hc
      rcases List.mem_append.mp hc with h1 | h2
      · exact ih _ c h1
      · simp at h2
        subst h2
        exact isDigitChar_digitChar _

theorem natRepr_mem_digit (n : Nat) : ∀ c ∈ natRepr n, isDigitChar c = true :=
  natReprAux_mem_digit (n + 1) n

theorem natReprAux_ne_nil (fuel n : Nat) (h : 0 < fuel) : natReprAux fuel n ≠ [] := by
  cases fuel with
  | zero => omega
  | succ fuel =>
    rw [natReprAux]
    by_cases h10 : n < 10
    · rw [if_pos h10]; simp
    · rw [if_neg h10]; simp

theorem natRepr_ne_nil (n : Nat) : natRepr n ≠ [] :=
  natReprAux_ne_nil (n + 1) n (Nat.succ_pos n)

theorem digitsToNat_append (xs : List Char) (c : Char) :
    digitsToNat (xs ++ [c]) = 10 * digitsToNat xs + digitVal c := by
  simp [digitsToNat, List.foldl_append]

theorem digitsToNat_natReprAux :
    ∀ fuel n, n < fuel → digitsToNat (natReprAux fuel n) = n := by
  intro fuel
  induction fuel with
  | zero => intro n h; omega
  | succ fuel ih =>
    intro n h
    rw [natReprAux]
    by_cases h10 : n < 10
    · rw [if_pos h10]
      simp [digitsToNat, digitVal_digitChar h10]
    · rw [if_neg h10]
      rw [digitsToNat_append, ih (n / 10) (by omega), digitVal_digitChar (by omega : n % 10 < 10)]
      omega

theorem digitsToNat_natRepr (n : Nat) : digitsToNat (natRepr n) = n :=
  digitsToNat_natReprAux (n + 1) n (Nat.lt_succ_self n)

theorem lowerChar_of_digit {c : Char} (h : isDigitChar c = true) : lowerChar c = c := by
  simp [isDigitChar] at h
  rw [lowerChar, if_neg]
  omega

theorem map_eq_self_of {f : Char → Char} :
    ∀ {s : List Char}, (∀ c ∈ s, f c = c) → s.map f = s := by
  intro s
  induction s with
  | nil => intro _; rfl
  | cons c cs ih =>
    intro h
    rw [List.map_cons, h c (List.mem_cons_self c cs),
        ih (fun x hx => h x (List.mem_cons_of_mem c hx))]

theorem map_lowerChar_natRepr (n : Nat) : (natRepr n).map lowerChar = natRepr n :=
  map_eq_self_of (fun c hc => lowerChar_of_digit (natRepr_mem_digit n c hc))

theorem intRepr_natCast (n : Nat) : intRepr (n : Int) = natRepr n := by
  have h1 : ¬((n : Int) < 0) := by omega
  have h2 : (n : Int).natAbs = n := by omega
  rw [intRepr, if_neg h1, h2]

/-! ## Strip, split, and substring lemmas -/

theorem dropWhile_eq_self_of {p : Char → Bool} {s : List Char}
    (h : ∀ c ∈ s, p c = false) : s.dropWhile p = s := by
  cases s with
  | nil => rfl
  | cons c cs =>
    rw [List.dropWhile_cons, h c (List.mem_cons_self c cs)]
    simp

theorem pyStrip_eq_self {s : List Char} (h : ∀ c ∈ s, isSpaceChar c = false) :
    pyStrip s = s := by
  unfold pyStrip
  rw [dropWhile_eq_self_of h]
  rw [dropWhile_eq_self_of (fun c hc => h c (List.mem_reverse.mp hc))]
  exact List.reverse_reverse s

theorem forall_mem_append_of {p : Char → Prop} {xs ys : List Char}
    (hx : ∀ c ∈ xs, p c) (hy : ∀ c ∈ ys, p c) : ∀ c ∈ xs ++ ys, p c := by
  intro c hc
  rcases List.mem_append.mp hc with h | h
  · exact hx c h
  · exact hy c h

theorem splitOnAux_no_sep {c : Char} :
    ∀ (xs acc : List Char), (∀ x ∈ xs, x ≠ c) →
      splitOnAux c xs acc = [acc.reverse ++ xs] := by
  intro xs
  induction xs with
  | nil => intro acc _; simp [splitOnAux]
  | cons x xs ih =>
    intro acc h
    rw [splitOnAux, if_neg (h x (List.mem_cons_self x xs))]
    rw [ih (x :: acc) (fun y hy => h y (List.mem_cons_of_mem x hy))]
    simp

theorem splitOnAux_sep {c : Char} :
    ∀ (xs acc ys : List Char), (∀ x ∈ xs, x ≠ c) →
      splitOnAux c (xs ++ c :: ys) acc = (acc.reverse ++ xs) :: splitOnC c ys := by
  intro xs
  induction xs with
  | nil => intro acc ys _; simp [splitOnAux, splitOnC]
  | cons x xs ih =>
    intro acc ys h
    rw [List.cons_append, splitOnAux, if_neg (h x (List.mem_cons_self x xs))]
    rw [ih (x :: acc) ys (fun y hy => h y (List.mem_cons_of_mem x hy))]
    simp

theorem splitOnC_append {c : Char} {xs ys : List Char} (h : ∀ x ∈ xs, x ≠ c) :
    splitOnC c (xs ++ c :: ys) = xs :: splitOnC c ys := by
  simpa [splitOnC] using splitOnAux_sep xs [] ys h

theorem splitOnC_no_sep {c : Char} {xs : List Char} (h : ∀ x ∈ xs, x ≠ c) :
    splitOnC c xs = [xs] := by
  simpa [splitOnC] using splitOnAux_no_sep xs [] h

theorem splitFirst_append {c : Char} :
    ∀ (xs ys : List Char), (∀ x ∈ xs, x ≠ c) →
      splitFirst c (xs ++ c :: ys) = some (xs, ys) := by
  intro xs
  induction xs with
  | nil => intro ys _; simp [splitFirst]
  | cons x xs ih =>
    intro ys h
    rw [List.cons_append, splitFirst, if_neg (h x (List.mem_cons_self x xs))]
    rw [ih ys (fun y hy => h y (List.mem_cons_of_mem x hy))]

theorem isPrefixC_append_self : ∀ (xs ys : List Char), isPrefixC xs (xs ++ ys) = true := by
  intro xs
  induction xs with
  | nil => intro ys; rfl
  | cons x xs ih => intro ys; simp [isPrefixC, ih]

theorem hasSub_of_isPrefix {pat s : List Char} (h : isPrefixC pat s = true) :
    hasSub pat s = true := by
  cases s with
  | nil =>
    cases pat with
    | nil => rfl
    | cons p ps => simp [isPrefixC] at h
  | cons c cs => simp [hasSub, h]

theorem hasSub_head_not_mem {p : Char} {ps s : List Char} (h : p ∉ s) :
    hasSub (p :: ps) s = false := by
  induction s with
  | nil => rfl
  | cons c cs ih =>
    simp only [hasSub, isPrefixC, Bool.or_eq_false_iff]
    constructor
    · rw [if_neg]
      intro hpc
      exact h (hpc ▸ List.mem_cons_self c cs)
    · exact ih (fun hm => h (List.mem_cons_of_mem c hm))

theorem not_mem_of_digits {d : Char} (hd : isDigitChar d = false) {r : List Char}
    (hr : ∀ c ∈ r, isDigitChar c = true) : d ∉ r := by
  intro hm
  rw [hr d hm] at hd
  exact Bool.noConfusion hd

theorem containsChar_eq_true_iff {c : Char} {s : List Char} :
    containsChar c s = true ↔ c ∈ s := by
  simp [containsChar]

theorem containsChar_eq_false_of {c : Char} {s : List Char} (h : ∀ x ∈ s, x ≠ c) :
    containsChar c s = false := by
  rw [Bool.eq_false_iff]
  intro hc
  exact h c (containsChar_eq_true_iff.mp hc) rfl

theorem pyInt_natRepr (n : Nat) : pyInt (natRepr n) = some (n : Int) := by
  have hdig := natRepr_mem_digit n
  have hstrip : pyStrip (natRepr n) = natRepr n :=
    pyStrip_eq_self (fun c hc => isSpaceChar_of_digit (hdig c hc))
  obtain ⟨c, rest, hcr⟩ : ∃ c rest, natRepr n = c :: rest := by
    cases h : natRepr n with
    | nil => exact absurd h (natRepr_ne_nil n)
    | cons c rest => exact ⟨c, rest, rfl⟩
  have hc : isDigitChar c = true := hdig c (by rw [hcr]; exact List.mem_cons_self _ _)
  have hall : allDigits (c :: rest) = true := by
    apply List.all_eq_true.mpr
    intro x hx
    exact hdig x (hcr ▸ hx)
  rw [pyInt, hstrip, hcr]
  dsimp only
  rw [if_neg (digit_ne hc (by decide : isDigitChar '-' = false)),
      if_neg (digit_ne hc (by decide : isDigitChar '+' = false)),
      if_pos hall]
  have := digitsToNat_natRepr n
  rw [hcr] at this
  rw [this]

/-! ## Keyed (AWS) format: behaviour of the loop body on formatted tokens -/

theorem awsParamField_max_token (n : Nat) :
    awsParamField (['m', 'a', 'x', 's', 'i', 'z', 'e'] ++ '=' :: natRepr n) =
      some (ScalingField.maxSize, (n : Int)) := by
  have hdig := natRepr_mem_digit n
  have hstrip : pyStrip (['m', 'a', 'x', 's', 'i', 'z', 'e'] ++ '=' :: natRepr n) =
      ['m', 'a', 'x', 's', 'i', 'z', 'e'] ++ '=' :: natRepr n := by
    apply pyStrip_eq_self
    apply forall_mem_append_of
    · decide
    · intro c hc
      rcases List.mem_cons.mp hc with h | h
      · subst h; decide
      · exact isSpaceChar_of_digit (hdig c h)
  have hsplit : splitFirst '=' (['m', 'a', 'x', 's', 'i', 'z', 'e'] ++ '=' :: natRepr n) =
      some (['m', 'a', 'x', 's', 'i', 'z', 'e'], natRepr n) :=
    splitFirst_append _ _ (by decide)
  have hkey : (pyStrip ['m', 'a', 'x', 's', 'i', 'z', 'e']).map lowerChar =
      ['m', 'a', 'x', 's', 'i', 'z', 'e'] := by decide
  have hval : pyStrip (natRepr n) = natRepr n :=
    pyStrip_eq_self (fun c hc => isSpaceChar_of_digit (hdig c hc))
  have hne : ¬((['m', 'a', 'x', 's', 'i', 'z', 'e'] ++ '=' :: natRepr n).isEmpty = true) := by
    simp
  simp only [awsParamField]
  rw [hstrip, if_neg hne, hsplit]
  dsimp only
  rw [hkey, hval]
  rw [if_pos (by decide :
    (hasSub ['m', 'a', 'x', 's', 'i', 'z', 'e'] ['m', 'a', 'x', 's', 'i', 'z', 'e'] ||
      (isPrefixC ['m', 'a', 'x'] ['m', 'a', 'x', 's', 'i', 'z', 'e'] &&
        hasSub ['s', 'i', 'z', 'e'] ['m', 'a', 'x', 's', 'i', 'z', 'e'])) = true)]
  rw [pyInt_natRepr]
  rfl

theorem awsParamField_desired_token (n : Nat) :
    awsParamField
        (['d', 'e', 's', 'i', 'r', 'e', 'd', 'c', 'a', 'p', 'a', 'c', 'i', 't', 'y'] ++
          '=' :: natRepr n) =
      some (ScalingField.desiredCapacity, (n : Int)) := by
  have hdig := natRepr_mem_digit n
  have hstrip : pyStrip
      (['d', 'e', 's', 'i', 'r', 'e', 'd', 'c', 'a', 'p', 'a', 'c', 'i', 't', 'y'] ++
        '=' :: natRepr n) =
      ['d', 'e', 's', 'i', 'r', 'e', 'd', 'c', 'a', 'p', 'a', 'c', 'i', 't', 'y'] ++
        '=' :: natRepr n := by
    apply pyStrip_eq_self
    apply forall_mem_append_of
    · decide
    · intro c hc
      rcases List.mem_cons.mp hc with h | h
      · subst h; decide
      · exact isSpaceChar_of_digit (hdig c h)
  have hsplit : splitFirst '='
      (['d', 'e', 's', 'i', 'r', 'e', 'd', 'c', 'a', 'p', 'a', 'c', 'i', 't', 'y'] ++
        '=' :: natRepr n) =
      some (['d', 'e', 's', 'i', 'r', 'e', 'd', 'c', 'a', 'p', 'a', 'c', 'i', 't', 'y'],
        natRepr n) :=
    splitFirst_append _ _ (by decide)
  have hkey : (pyStrip
      ['d', 'e', 's', 'i', 'r', 'e', 'd', 'c', 'a', 'p', 'a', 'c', 'i', 't', 'y']).map
        lowerChar =
      ['d', 'e', 's', 'i', 'r', 'e', 'd', 'c', 'a', 'p', 'a', 'c', 'i', 't', 'y'] := by decide
  have hval : pyStrip (natRepr n) = natRepr n :=
    pyStrip_eq_self (fun c hc => isSpaceChar_of_digit (hdig c hc))
  have hne : ¬((['d', 'e', 's', 'i', 'r', 'e', 'd', 'c', 'a', 'p', 'a', 'c', 'i', 't', 'y'] ++
      '=' :: natRepr n).isEmpty = true) := by
    simp
  simp only [awsParamField]
  rw [hstrip, if_neg hne, hsplit]
  dsimp only
  rw [hkey, hval]
  rw [if_neg (by decide), if_neg (by decide), if_pos (by decide)]
  rw [pyInt_natRepr]
  rfl

theorem awsParamField_min_token (n : Nat) :
    awsParamField (['m', 'i', 'n', 's', 'i', 'z', 'e'] ++ '=' :: natRepr n) =
      some (ScalingField.minSize, (n : Int)) := by
  have hdig := natRepr_mem_digit n
  have hstrip : pyStrip (['m', 'i', 'n', 's', 'i', 'z', 'e'] ++ '=' :: natRepr n) =
      ['m', 'i', 'n', 's', 'i', 'z', 'e'] ++ '=' :: natRepr n := by
    apply pyStrip_eq_self
    apply forall_mem_append_of
    · decide
    · intro c hc
      rcases List.mem_cons.mp hc with h | h
      · subst h; decide
      · exact isSpaceChar_of_digit (hdig c h)
  have hsplit : splitFirst '=' (['m', 'i', 'n', 's', 'i', 'z', 'e'] ++ '=' :: natRepr n) =
      some (['m', 'i', 'n', 's', 'i', 'z', 'e'], natRepr n) :=
    splitFirst_append _ _ (by decide)
  have hkey : (pyStrip ['m', 'i', 'n', 's', 'i', 'z', 'e']).map lowerChar =
      ['m', 'i', 'n', 's', 'i', 'z', 'e'] := by decide
  have hval : pyStrip (natRepr n) = natRepr n :=
    pyStrip_eq_self (fun c hc => isSpaceChar_of_digit (hdig c hc))
  have hne : ¬((['m', 'i', 'n', 's', 'i', 'z', 'e'] ++ '=' :: natRepr n).isEmpty = true) := by
    simp
  simp only [awsParamField]
  rw [hstrip, if_neg hne, hsplit]
  dsimp only
  rw [hkey, hval]
  rw [if_neg (by decide), if_pos (by decide)]
  rw [pyInt_natRepr]
  rfl

theorem awsStep_max_token (v : PVals) (n : Nat) :
    awsStep v (['m', 'a', 'x', 's', 'i', 'z', 'e'] ++ '=' :: natRepr n) =
      { v with max? := some (n : Int) } := by
  rw [awsStep, awsParamField_max_token]
  rfl

theorem awsStep_desired_token (v : PVals) (n : Nat) :
    awsStep v
        (['d', 'e', 's', 'i', 'r', 'e', 'd', 'c', 'a', 'p', 'a', 'c', 'i', 't', 'y'] ++
          '=' :: natRepr n) =
      { v with desired? := some (n : Int) } := by
  rw [awsStep, awsParamField_desired_token]
  rfl

theorem awsStep_min_token (v : PVals) (n : Nat) :
    awsStep v (['m', 'i', 'n', 's', 'i', 'z', 'e'] ++ '=' :: natRepr n) =
      { v with min? := some (n : Int) } := by
  rw [awsStep, awsParamField_min_token]
  rfl

/-! ## Round-trip of the keyed (AWS) format -/

theorem digits_ne_char {n : Nat} {d : Char} (hd : isDigitChar d = false) :
    ∀ x ∈ natRepr n, x ≠ d :=
  fun x hx => digit_ne (natRepr_mem_digit n x hx) hd

theorem cons_digits_ne {c0 d : Char} (h0 : c0 ≠ d) {n : Nat} (hd : isDigitChar d = false) :
    ∀ x ∈ c0 :: natRepr n, x ≠ d := by
  intro x hx
  rcases List.mem_cons.mp hx with h | h
  · subst h; exact h0
  · exact digits_ne_char hd x h

theorem map_lowerChar_intRepr_cast (k : Nat) :
    (intRepr (k : Int)).map lowerChar = natRepr k := by
  rw [intRepr_natCast]
  exact map_lowerChar_natRepr k

theorem map_lowerChar_awsTagValue (mn mx ds : Nat) :
    (awsTagValue (mn : Int) (mx : Int) (ds : Int)).map lowerChar =
      (['m', 'a', 'x', 's', 'i', 'z', 'e'] ++ '=' :: natRepr mx) ++ ';' ::
        ((['d', 'e', 's', 'i', 'r', 'e', 'd', 'c', 'a', 'p', 'a', 'c', 'i', 't', 'y'] ++
            '=' :: natRepr ds) ++ ';' ::
          (['m', 'i', 'n', 's', 'i', 'z', 'e'] ++ '=' :: natRepr mn)) := by
  have hsc : lowerChar ';' = ';' := by decide
  have hA : List.map lowerChar ['M', 'a', 'x', 'S', 'i', 'z', 'e', '='] =
      ['m', 'a', 'x', 's', 'i', 'z', 'e', '='] := by decide
  have hB : List.map lowerChar
      ['D', 'e', 's', 'i', 'r', 'e', 'd', 'C', 'a', 'p', 'a', 'c', 'i', 't', 'y', '='] =
      ['d', 'e', 's', 'i', 'r', 'e', 'd', 'c', 'a', 'p', 'a', 'c', 'i', 't', 'y', '='] := by
    decide
  have hC : List.map lowerChar ['M', 'i', 'n', 'S', 'i', 'z', 'e', '='] =
      ['m', 'i', 'n', 's', 'i', 'z', 'e', '='] := by decide
  rw [awsTagValue]
  rw [List.map_append, List.map_append, hA, map_lowerChar_intRepr_cast, List.map_cons, hsc]
  rw [List.map_append, List.map_append, hB, map_lowerChar_intRepr_cast, List.map_cons, hsc]
  rw [List.map_append, hC, map_lowerChar_intRepr_cast]
  rfl

theorem parseAwsFormat_tokens (mn mx ds : Nat) :
    parseAwsFormat
        ((['m', 'a', 'x', 's', 'i', 'z', 'e'] ++ '=' :: natRepr mx) ++ ';' ::
          ((['d', 'e', 's', 'i', 'r', 'e', 'd', 'c', 'a', 'p', 'a', 'c', 'i', 't', 'y'] ++
              '=' :: natRepr ds) ++ ';' ::
            (['m', 'i', 'n', 's', 'i', 'z', 'e'] ++ '=' :: natRepr mn))) =
      .ok ⟨(mx : Int), (mn : Int), (ds : Int)⟩ := by
  have hT1 : ∀ x ∈ (['m', 'a', 'x', 's', 'i', 'z', 'e'] ++ '=' :: natRepr mx), x ≠ ';' :=
    forall_mem_append_of (by decide) (cons_digits_ne (by decide) (by decide))
  have hT2 : ∀ x ∈ (['d', 'e', 's', 'i', 'r', 'e', 'd', 'c', 'a', 'p', 'a', 'c', 'i', 't', 'y'] ++
      '=' :: natRepr ds), x ≠ ';' :=
    forall_mem_append_of (by decide) (cons_digits_ne (by decide) (by decide))
  have hT3 : ∀ x ∈ (['m', 'i', 'n', 's', 'i', 'z', 'e'] ++ '=' :: natRepr mn), x ≠ ';' :=
    forall_mem_append_of (by decide) (cons_digits_ne (by decide) (by decide))
  rw [parseAwsFormat]
  rw [splitOnC_append hT1, splitOnC_append hT2, splitOnC_no_sep hT3]
  rw [List.foldl_cons, awsStep_max_token, List.foldl_cons, awsStep_desired_token,
      List.foldl_cons, awsStep_min_token, List.foldl_nil]

theorem validateScalingValues_ok_of (mx mn ds : Int)
    (h0 : 0 ≤ mn) (h1 : mn ≤ ds) (h2 : ds ≤ mx) (h3 : mx ≤ 1000) :
    validateScalingValues ⟨mx, mn, ds⟩ = .ok () := by
  rw [validateScalingValues]
  dsimp only
  rw [if_neg (by omega), if_neg (by omega), if_neg (by omega), if_neg (by omega)]

theorem parseScalingValues_keyed (mn ds mx : Nat)
    (h1 : mn ≤ ds) (h2 : ds ≤ mx) (h3 : mx ≤ 1000) :
    parseScalingValues (awsTagValue (mn : Int) (mx : Int) (ds : Int)) =
      .ok ((mx : Int), (ds : Int), (mn : Int)) := by
  have hc1 : containsChar ';'
      ((['m', 'a', 'x', 's', 'i', 'z', 'e'] ++ '=' :: natRepr mx) ++ ';' ::
        ((['d', 'e', 's', 'i', 'r', 'e', 'd', 'c', 'a', 'p', 'a', 'c', 'i', 't', 'y'] ++
            '=' :: natRepr ds) ++ ';' ::
          (['m', 'i', 'n', 's', 'i', 'z', 'e'] ++ '=' :: natRepr mn))) = true :=
    containsChar_eq_true_iff.mpr (List.mem_append.mpr (Or.inr (List.mem_cons_self _ _)))
  rw [parseScalingValues, map_lowerChar_awsTagValue]
  rw [parseStage, if_pos hc1]
  rw [parseAwsFormat_tokens]
  dsimp only
  rw [validateScalingValues_ok_of _ _ _ (by omega) (by omega : (mn : Int) ≤ (ds : Int))
      (by omega : (ds : Int) ≤ (mx : Int)) (by omega)]

/-! ## Dashed (GCP) format: behaviour of the loop body on formatted tokens -/

theorem filter_eq_self_of {p : Char → Bool} :
    ∀ {s : List Char}, (∀ c ∈ s, p c = true) → s.filter p = s := by
  intro s
  induction s with
  | nil => intro _; rfl
  | cons c cs ih =>
    intro h
    rw [List.filter_cons, if_pos (h c (List.mem_cons_self c cs))]
    rw [ih (fun x hx => h x (List.mem_cons_of_mem c hx))]

theorem forall_mem_cons_of {p : Char → Prop} {c0 : Char} {ys : List Char}
    (h0 : p c0) (hy : ∀ c ∈ ys, p c) : ∀ c ∈ c0 :: ys, p c := by
  intro c hc
  rcases List.mem_cons.mp hc with h | h
  · subst h; exact h0
  · exact hy c h

theorem gcpPartField_max_token (n : Nat) :
    gcpPartField (['m', 'a', 'x', 's', 'i', 'z', 'e'] ++ natRepr n) =
      some (ScalingField.maxSize, some (n : Int)) := by
  have hdig := natRepr_mem_digit n
  have hstrip : pyStrip (['m', 'a', 'x', 's', 'i', 'z', 'e'] ++ natRepr n) =
      ['m', 'a', 'x', 's', 'i', 'z', 'e'] ++ natRepr n :=
    pyStrip_eq_self
      (forall_mem_append_of (by decide) (fun c hc => isSpaceChar_of_digit (hdig c hc)))
  have hmax : hasSub ['m', 'a', 'x'] (['m', 'a', 'x', 's', 'i', 'z', 'e'] ++ natRepr n) = true :=
    hasSub_of_isPrefix (isPrefixC_append_self ['m', 'a', 'x'] (['s', 'i', 'z', 'e'] ++ natRepr n))
  have hfil : (['m', 'a', 'x', 's', 'i', 'z', 'e'] ++ natRepr n).filter isDigitChar =
      natRepr n := by
    rw [List.filter_append,
        show List.filter isDigitChar ['m', 'a', 'x', 's', 'i', 'z', 'e'] = [] from by decide,
        List.nil_append]
    exact filter_eq_self_of hdig
  simp only [gcpPartField]
  rw [hstrip, if_pos hmax, hfil, pyInt_natRepr]

theorem gcpPartField_desired_token (n : Nat) :
    gcpPartField
        (['d', 'e', 's', 'i', 'r', 'e', 'd', 'c', 'a', 'p', 'a', 'c', 'i', 't', 'y'] ++
          natRepr n) =
      some (ScalingField.desiredCapacity, some (n : Int)) := by
  have hdig := natRepr_mem_digit n
  have hstrip : pyStrip
      (['d', 'e', 's', 'i', 'r', 'e', 'd', 'c', 'a', 'p', 'a', 'c', 'i', 't', 'y'] ++
        natRepr n) =
      ['d', 'e', 's', 'i', 'r', 'e', 'd', 'c', 'a', 'p', 'a', 'c', 'i', 't', 'y'] ++
        natRepr n :=
    pyStrip_eq_self
      (forall_mem_append_of (by decide) (fun c hc => isSpaceChar_of_digit (hdig c hc)))
  have hnm : 'm' ∉
      (['d', 'e', 's', 'i', 'r', 'e', 'd', 'c', 'a', 'p', 'a', 'c', 'i', 't', 'y'] ++
        natRepr n) := by
    intro hm
    rcases List.mem_append.mp hm with h | h
    · revert h; decide
    · exact not_mem_of_digits (by decide) hdig h
  have hdes : hasSub ['d', 'e', 's', 'i', 'r', 'e', 'd']
      (['d', 'e', 's', 'i', 'r', 'e', 'd', 'c', 'a', 'p', 'a', 'c', 'i', 't', 'y'] ++
        natRepr n) = true :=
    hasSub_of_isPrefix (isPrefixC_append_self ['d', 'e', 's', 'i', 'r', 'e', 'd']
      (['c', 'a', 'p', 'a', 'c', 'i', 't', 'y'] ++ natRepr n))
  have hfil : ((['d', 'e', 's', 'i', 'r', 'e', 'd', 'c', 'a', 'p', 'a', 'c', 'i', 't', 'y'] ++
      natRepr n)).filter isDigitChar = natRepr n := by
    rw [List.filter_append,
        show List.filter isDigitChar
          ['d', 'e', 's', 'i', 'r', 'e', 'd', 'c', 'a', 'p', 'a', 'c', 'i', 't', 'y'] = []
          from by decide,
        List.nil_append]
    exact filter_eq_self_of hdig
  simp only [gcpPartField]
  rw [hstrip, if_neg (ne_true_of_eq_false (hasSub_head_not_mem hnm)),
      if_neg (ne_true_of_eq_false (hasSub_head_not_mem hnm)), if_pos hdes, hfil, pyInt_natRepr]

theorem hasSub_max_minsize_digits {r : List Char} (hr : ∀ c ∈ r, isDigitChar c = true) :
    hasSub ['m', 'a', 'x'] (['m', 'i', 'n', 's', 'i', 'z', 'e'] ++ r) = false := by
  have htail : hasSub ['m', 'a', 'x'] r = false :=
    hasSub_head_not_mem (not_mem_of_digits (by decide) hr)
  simp [hasSub, isPrefixC, htail]

theorem gcpPartField_min_token (n : Nat) :
    gcpPartField (['m', 'i', 'n', 's', 'i', 'z', 'e'] ++ natRepr n) =
      some (ScalingField.minSize, some (n : Int)) := by
  have hdig := natRepr_mem_digit n
  have hstrip : pyStrip (['m', 'i', 'n', 's', 'i', 'z', 'e'] ++ natRepr n) =
      ['m', 'i', 'n', 's', 'i', 'z', 'e'] ++ natRepr n :=
    pyStrip_eq_self
      (forall_mem_append_of (by decide) (fun c hc => isSpaceChar_of_digit (hdig c hc)))
  have hmin : hasSub ['m', 'i', 'n'] (['m', 'i', 'n', 's', 'i', 'z', 'e'] ++ natRepr n) = true :=
    hasSub_of_isPrefix (isPrefixC_append_self ['m', 'i', 'n'] (['s', 'i', 'z', 'e'] ++ natRepr n))
  have hfil : ((['m', 'i', 'n', 's', 'i', 'z', 'e'] ++ natRepr n)).filter isDigitChar =
      natRepr n := by
    rw [List.filter_append,
        show List.filter isDigitChar ['m', 'i', 'n', 's', 'i', 'z', 'e'] = [] from by decide,
        List.nil_append]
    exact filter_eq_self_of hdig
  simp only [gcpPartField]
  rw [hstrip, if_neg (ne_true_of_eq_false (hasSub_max_minsize_digits hdig)), if_pos hmin, hfil,
      pyInt_natRepr]

theorem gcpPartField_desiredsize_token (n : Nat) :
    gcpPartField (['d', 'e', 's', 'i', 'r', 'e', 'd', 's', 'i', 'z', 'e'] ++ natRepr n) =
      some (ScalingField.desiredCapacity, some (n : Int)) := by
  have hdig := natRepr_mem_digit n
  have hstrip : pyStrip (['d', 'e', 's', 'i', 'r', 'e', 'd', 's', 'i', 'z', 'e'] ++ natRepr n) =
      ['d', 'e', 's', 'i', 'r', 'e', 'd', 's', 'i', 'z', 'e'] ++ natRepr n :=
    pyStrip_eq_self
      (forall_mem_append_of (by decide) (fun c hc => isSpaceChar_of_digit (hdig c hc)))
  have hnm : 'm' ∉ (['d', 'e', 's', 'i', 'r', 'e', 'd', 's', 'i', 'z', 'e'] ++ natRepr n) := by
    intro hm
    rcases List.mem_append.mp hm with h | h
    · revert h; decide
    · exact not_mem_of_digits (by decide) hdig h
  have hdes : hasSub ['d', 'e', 's', 'i', 'r', 'e', 'd']
      (['d', 'e', 's', 'i', 'r', 'e', 'd', 's', 'i', 'z', 'e'] ++ natRepr n) = true :=
    hasSub_of_isPrefix (isPrefixC_append_self ['d', 'e', 's', 'i', 'r', 'e', 'd']
      (['s', 'i', 'z', 'e'] ++ natRepr n))
  have hfil : ((['d', 'e', 's', 'i', 'r', 'e', 'd', 's', 'i', 'z', 'e'] ++
      natRepr n)).filter isDigitChar = natRepr n := by
    rw [List.filter_append,
        show List.filter isDigitChar ['d', 'e', 's', 'i', 'r', 'e', 'd', 's', 'i', 'z', 'e'] = []
          from by decide,
        List.nil_append]
    exact filter_eq_self_of hdig
  simp only [gcpPartField]
  rw [hstrip, if_neg (ne_true_of_eq_false (hasSub_head_not_mem hnm)),
      if_neg (ne_true_of_eq_false (hasSub_head_not_mem hnm)), if_pos hdes, hfil, pyInt_natRepr]

theorem gcpStep_max_token (v : PVals) (n : Nat) :
    gcpStep v (['m', 'a', 'x', 's', 'i', 'z', 'e'] ++ natRepr n) =
      .ok { v with max? := some (n : Int) } := by
  rw [gcpStep, gcpPartField_max_token]

theorem gcpStep_desired_token (v : PVals) (n : Nat) :
    gcpStep v
        (['d', 'e', 's', 'i', 'r', 'e', 'd', 'c', 'a', 'p', 'a', 'c', 'i', 't', 'y'] ++
          natRepr n) =
      .ok { v with desired? := some (n : Int) } := by
  rw [gcpStep, gcpPartField_desired_token]

theorem gcpStep_min_token (v : PVals) (n : Nat) :
    gcpStep v (['m', 'i', 'n', 's', 'i', 'z', 'e'] ++ natRepr n) =
      .ok { v with min? := some (n : Int) } := by
  rw [gcpStep, gcpPartField_min_token]

theorem gcpStep_desiredsize_token (v : PVals) (n : Nat) :
    gcpStep v (['d', 'e', 's', 'i', 'r', 'e', 'd', 's', 'i', 'z', 'e'] ++ natRepr n) =
      .ok { v with desired? := some (n : Int) } := by
  rw [gcpStep, gcpPartField_desiredsize_token]

/-! ## Round-trip of the dashed (GCP) format and the legacy dashed order -/

theorem map_lowerChar_gcpLabelValue (mn mx ds : Nat) :
    (gcpLabelValue (mn : Int) (mx : Int) (ds : Int)).map lowerChar =
      (['m', 'a', 'x', 's', 'i', 'z', 'e'] ++ natRepr mx) ++ '-' ::
        ((['d', 'e', 's', 'i', 'r', 'e', 'd', 'c', 'a', 'p', 'a', 'c', 'i', 't', 'y'] ++
            natRepr ds) ++ '-' ::
          (['m', 'i', 'n', 's', 'i', 'z', 'e'] ++ natRepr mn)) := by
  have hdc : lowerChar '-' = '-' := by decide
  have hA : List.map lowerChar ['m', 'a', 'x', 's', 'i', 'z', 'e'] =
      ['m', 'a', 'x', 's', 'i', 'z', 'e'] := by decide
  have hB : List.map lowerChar
      ['d', 'e', 's', 'i', 'r', 'e', 'd', 'c', 'a', 'p', 'a', 'c', 'i', 't', 'y'] =
      ['d', 'e', 's', 'i', 'r', 'e', 'd', 'c', 'a', 'p', 'a', 'c', 'i', 't', 'y'] := by decide
  have hC : List.map lowerChar ['m', 'i', 'n', 's', 'i', 'z', 'e'] =
      ['m', 'i', 'n', 's', 'i', 'z', 'e'] := by decide
  rw [gcpLabelValue]
  rw [List.map_append, List.map_append, hA, map_lowerChar_intRepr_cast, List.map_cons, hdc]
  rw [List.map_append, List.map_append, hB, map_lowerChar_intRepr_cast, List.map_cons, hdc]
  rw [List.map_append, hC, map_lowerChar_intRepr_cast]

theorem map_lowerChar_legacyGcpPayload (x y z : Nat) :
    (legacyGcpPayload (x : Int) (y : Int) (z : Int)).map lowerChar =
      (['m', 'a', 'x', 's', 'i', 'z', 'e'] ++ natRepr x) ++ '-' ::
        ((['m', 'i', 'n', 's', 'i', 'z', 'e'] ++ natRepr y) ++ '-' ::
          (['d', 'e', 's', 'i', 'r', 'e', 'd', 's', 'i', 'z', 'e'] ++ natRepr z)) := by
  have hdc : lowerChar '-' = '-' := by decide
  have hA : List.map lowerChar ['m', 'a', 'x', 's', 'i', 'z', 'e'] =
      ['m', 'a', 'x', 's', 'i', 'z', 'e'] := by decide
  have hB : List.map lowerChar ['m', 'i', 'n', 's', 'i', 'z', 'e'] =
      ['m', 'i', 'n', 's', 'i', 'z', 'e'] := by decide
  have hC : List.map lowerChar ['d', 'e', 's', 'i', 'r', 'e', 'd', 's', 'i', 'z', 'e'] =
      ['d', 'e', 's', 'i', 'r', 'e', 'd', 's', 'i', 'z', 'e'] := by decide
  rw [legacyGcpPayload]
  rw [List.map_append, List.map_append, hA, map_lowerChar_intRepr_cast, List.map_cons, hdc]
  rw [List.map_append, List.map_append, hB, map_lowerChar_intRepr_cast, List.map_cons, hdc]
  rw [List.map_append, hC, map_lowerChar_intRepr_cast]

theorem parseGcpFormat_tokens (mn mx ds : Nat) :
    parseGcpFormat
        ((['m', 'a', 'x', 's', 'i', 'z', 'e'] ++ natRepr mx) ++ '-' ::
          ((['d', 'e', 's', 'i', 'r', 'e', 'd', 'c', 'a', 'p', 'a', 'c', 'i', 't', 'y'] ++
              natRepr ds) ++ '-' ::
            (['m', 'i', 'n', 's', 'i', 'z', 'e'] ++ natRepr mn))) =
      .ok ⟨(mx : Int), (mn : Int), (ds : Int)⟩ := by
  have hT1 : ∀ c ∈ (['m', 'a', 'x', 's', 'i', 'z', 'e'] ++ natRepr mx), c ≠ '-' :=
    forall_mem_append_of (by decide) (digits_ne_char (by decide))
  have hT2 : ∀ c ∈ (['d', 'e', 's', 'i', 'r', 'e', 'd', 'c', 'a', 'p', 'a', 'c', 'i', 't', 'y'] ++
      natRepr ds), c ≠ '-' :=
    forall_mem_append_of (by decide) (digits_ne_char (by decide))
  have hT3 : ∀ c ∈ (['m', 'i', 'n', 's', 'i', 'z', 'e'] ++ natRepr mn), c ≠ '-' :=
    forall_mem_append_of (by decide) (digits_ne_char (by decide))
  rw [parseGcpFormat]
  rw [splitOnC_append hT1, splitOnC_append hT2, splitOnC_no_sep hT3]
  rw [gcpFold, gcpStep_max_token]
  dsimp only
  rw [gcpFold, gcpStep_desired_token]
  dsimp only
  rw [gcpFold, gcpStep_min_token]
  dsimp only
  rw [gcpFold]

theorem parseGcpFormat_legacy_tokens (x y z : Nat) :
    parseGcpFormat
        ((['m', 'a', 'x', 's', 'i', 'z', 'e'] ++ natRepr x) ++ '-' ::
          ((['m', 'i', 'n', 's', 'i', 'z', 'e'] ++ natRepr y) ++ '-' ::
            (['d', 'e', 's', 'i', 'r', 'e', 'd', 's', 'i', 'z', 'e'] ++ natRepr z))) =
      .ok ⟨(x : Int), (y : Int), (z : Int)⟩ := by
  have hT1 : ∀ c ∈ (['m', 'a', 'x', 's', 'i', 'z', 'e'] ++ natRepr x), c ≠ '-' :=
    forall_mem_append_of (by decide) (digits_ne_char (by decide))
  have hT2 : ∀ c ∈ (['m', 'i', 'n', 's', 'i', 'z', 'e'] ++ natRepr y), c ≠ '-' :=
    forall_mem_append_of (by decide) (digits_ne_char (by decide))
  have hT3 : ∀ c ∈ (['d', 'e', 's', 'i', 'r', 'e', 'd', 's', 'i', 'z', 'e'] ++ natRepr z),
      c ≠ '-' :=
    forall_mem_append_of (by decide) (digits_ne_char (by decide))
  rw [parseGcpFormat]
  rw [splitOnC_append hT1, splitOnC_append hT2, splitOnC_no_sep hT3]
  rw [gcpFold, gcpStep_max_token]
  dsimp only
  rw [gcpFold, gcpStep_min_token]
  dsimp only
  rw [gcpFold, gcpStep_desiredsize_token]
  dsimp only
  rw [gcpFold]

theorem parseScalingValues_dashed (mn ds mx : Nat)
    (h1 : mn ≤ ds) (h2 : ds ≤ mx) (h3 : mx ≤ 1000) :
    parseScalingValues (gcpLabelValue (mn : Int) (mx : Int) (ds : Int)) =
      .ok ((mx : Int), (ds : Int), (mn : Int)) := by
  have hT1 : ∀ c ∈ (['m', 'a', 'x', 's', 'i', 'z', 'e'] ++ natRepr mx), c ≠ ';' :=
    forall_mem_append_of (by decide) (digits_ne_char (by decide))
  have hT2 : ∀ c ∈ (['d', 'e', 's', 'i', 'r', 'e', 'd', 'c', 'a', 'p', 'a', 'c', 'i', 't', 'y'] ++
      natRepr ds), c ≠ ';' :=
    forall_mem_append_of (by decide) (digits_ne_char (by decide))
  have hT3 : ∀ c ∈ (['m', 'i', 'n', 's', 'i', 'z', 'e'] ++ natRepr mn), c ≠ ';' :=
    forall_mem_append_of (by decide) (digits_ne_char (by decide))
  have hnosemi : containsChar ';'
      ((['m', 'a', 'x', 's', 'i', 'z', 'e'] ++ natRepr mx) ++ '-' ::
        ((['d', 'e', 's', 'i', 'r', 'e', 'd', 'c', 'a', 'p', 'a', 'c', 'i', 't', 'y'] ++
            natRepr ds) ++ '-' ::
          (['m', 'i', 'n', 's', 'i', 'z', 'e'] ++ natRepr mn))) = false :=
    containsChar_eq_false_of (forall_mem_append_of hT1 (forall_mem_cons_of (by decide)
      (forall_mem_append_of hT2 (forall_mem_cons_of (by decide) hT3))))
  have hdash : containsChar '-'
      ((['m', 'a', 'x', 's', 'i', 'z', 'e'] ++ natRepr mx) ++ '-' ::
        ((['d', 'e', 's', 'i', 'r', 'e', 'd', 'c', 'a', 'p', 'a', 'c', 'i', 't', 'y'] ++
            natRepr ds) ++ '-' ::
          (['m', 'i', 'n', 's', 'i', 'z', 'e'] ++ natRepr mn))) = true :=
    containsChar_eq_true_iff.mpr (List.mem_append.mpr (Or.inr (List.mem_cons_self _ _)))
  rw [parseScalingValues, map_lowerChar_gcpLabelValue]
  rw [parseStage, if_neg (ne_true_of_eq_false hnosemi), if_pos hdash]
  rw [parseGcpFormat_tokens]
  dsimp only
  rw [validateScalingValues_ok_of _ _ _ (by omega) (by omega : (mn : Int) ≤ (ds : Int))
      (by omega : (ds : Int) ≤ (mx : Int)) (by omega)]

theorem parseScalingValues_legacy (x y z : Nat)
    (h1 : y ≤ z) (h2 : z ≤ x) (h3 : x ≤ 1000) :
    parseScalingValues (legacyGcpPayload (x : Int) (y : Int) (z : Int)) =
      .ok ((x : Int), (z : Int), (y : Int)) := by
  have hT1 : ∀ c ∈ (['m', 'a', 'x', 's', 'i', 'z', 'e'] ++ natRepr x), c ≠ ';' :=
    forall_mem_append_of (by decide) (digits_ne_char (by decide))
  have hT2 : ∀ c ∈ (['m', 'i', 'n', 's', 'i', 'z', 'e'] ++ natRepr y), c ≠ ';' :=
    forall_mem_append_of (by decide) (digits_ne_char (by decide))
  have hT3 : ∀ c ∈ (['d', 'e', 's', 'i', 'r', 'e', 'd', 's', 'i', 'z', 'e'] ++ natRepr z),
      c ≠ ';' :=
    forall_mem_append_of (by decide) (digits_ne_char (by decide))
  have hnosemi : containsChar ';'
      ((['m', 'a', 'x', 's', 'i', 'z', 'e'] ++ natRepr x) ++ '-' ::
        ((['m', 'i', 'n', 's', 'i', 'z', 'e'] ++ natRepr y) ++ '-' ::
          (['d', 'e', 's', 'i', 'r', 'e', 'd', 's', 'i', 'z', 'e'] ++ natRepr z))) = false :=
    containsChar_eq_false_of (forall_mem_append_of hT1 (forall_mem_cons_of (by decide)
      (forall_mem_append_of hT2 (forall_mem_cons_of (by decide) hT3))))
  have hdash : containsChar '-'
      ((['m', 'a', 'x', 's', 'i', 'z', 'e'] ++ natRepr x) ++ '-' ::
        ((['m', 'i', 'n', 's', 'i', 'z', 'e'] ++ natRepr y) ++ '-' ::
          (['d', 'e', 's', 'i', 'r', 'e', 'd', 's', 'i', 'z', 'e'] ++ natRepr z))) = true :=
    containsChar_eq_true_iff.mpr (List.mem_append.mpr (Or.inr (List.mem_cons_self _ _)))
  rw [parseScalingValues, map_lowerChar_legacyGcpPayload]
  rw [parseStage, if_neg (ne_true_of_eq_false hnosemi), if_pos hdash]
  rw [parseGcpFormat_legacy_tokens]
  dsimp only
  rw [validateScalingValues_ok_of _ _ _ (by omega) (by omega : (y : Int) ≤ (z : Int))
      (by omega : (z : Int) ≤ (x : Int)) (by omega)]

/-! ## Operation waiter lemmas -/

theorem waitAux_timedOut (poll : Nat → OpStatus) (timeoutSeconds : Nat)
    (hpoll : ∀ k, poll k ≠ OpStatus.done ∧ poll k ≠ OpStatus.aborting) :
    ∀ fuel k, waitAux poll timeoutSeconds fuel k = .timedOut := by
  intro fuel
  induction fuel with
  | zero => intro k; rfl
  | succ fuel ih =>
    intro k
    rw [waitAux]
    by_cases h : 5 * k < timeoutSeconds
    · rw [if_pos h]
      cases hs : poll k with
      | done => exact absurd hs (hpoll k).1
      | aborting => exact absurd hs (hpoll k).2
      | unspecified => exact ih (k + 1)
      | pending => exact ih (k + 1)
      | running => exact ih (k + 1)
      | unknown code => exact ih (k + 1)
    · rw [if_neg h]

/-! ## Validation lemmas -/

theorem validateScalingValues_error_of (mx mn ds : Int)
    (hviol : mx < 0 ∨ mn < 0 ∨ ds < 0 ∨ 1000 < mx ∨ mx < mn ∨ ds < mn ∨ mx < ds) :
    validateScalingValues ⟨mx, mn, ds⟩ =
      .error (.invalidRange (rangeViolationOf mx mn ds)) := by
  rw [validateScalingValues, rangeViolationOf]
  dsimp only
  by_cases h1 : mx < 0 ∨ mn < 0 ∨ ds < 0
  · rw [if_pos h1, if_pos h1]
  · rw [if_neg h1, if_neg h1]
    by_cases h2 : mx > 1000
    · rw [if_pos h2, if_pos h2]
    · rw [if_neg h2, if_neg h2]
      by_cases h3 : mn > mx
      · rw [if_pos h3, if_pos h3]
      · rw [if_neg h3, if_neg h3]
        rw [if_pos (by omega : ¬(mn ≤ ds ∧ ds ≤ mx))]

theorem validateScalingValues_ok_bounds {v : Vals}
    (h : validateScalingValues v = .ok ()) :
    0 ≤ v.vmin ∧ v.vmin ≤ v.vdesired ∧ v.vdesired ≤ v.vmax ∧ v.vmax ≤ 1000 := by
  rw [validateScalingValues] at h
  by_cases h1 : v.vmax < 0 ∨ v.vmin < 0 ∨ v.vdesired < 0
  · rw [if_pos h1] at h; exact absurd h (by simp)
  · rw [if_neg h1] at h
    by_cases h2 : v.vmax > 1000
    · rw [if_pos h2] at h; exact absurd h (by simp)
    · rw [if_neg h2] at h
      by_cases h3 : v.vmin > v.vmax
      · rw [if_pos h3] at h; exact absurd h (by simp)
      · rw [if_neg h3] at h
        by_cases h4 : ¬(v.vmin ≤ v.vdesired ∧ v.vdesired ≤ v.vmax)
        · rw [if_pos h4] at h; exact absurd h (by simp)
        · omega

theorem parseScalingValues_ok_bounds {payload : List Char} {mx ds mn : Int}
    (h : parseScalingValues payload = .ok (mx, ds, mn)) :
    0 ≤ mn ∧ mn ≤ ds ∧ ds ≤ mx ∧ mx ≤ 1000 := by
  rw [parseScalingValues] at h
  cases hs : parseStage (payload.map lowerChar) with
  | error e => rw [hs] at h; exact absurd h (by simp)
  | ok v =>
    rw [hs] at h
    dsimp only at h
    cases hv : validateScalingValues v with
    | error e => rw [hv] at h; exact absurd h (by simp)
    | ok u =>
      rw [hv] at h
      dsimp only at h
      obtain ⟨e1, e2, e3⟩ : v.vmax = mx ∧ v.vdesired = ds ∧ v.vmin = mn := by
        have := h
        simp only [Except.ok.injEq, Prod.mk.injEq] at this
        exact ⟨this.1, this.2.1, this.2.2⟩
      cases u
      have hb := validateScalingValues_ok_bounds hv
      omega

/-! ## SaveAndZero decision lemmas -/

theorem scaleDownAwsAsg_noop_of_zero (dryRun : Bool) (asg : AsgState)
    (h : asg.desiredCapacity = 0 ∧ asg.minSize = 0 ∧ asg.maxSize = 0) :
    scaleDownAwsAsg dryRun asg = ⟨false, [], [], asg⟩ := by
  rw [scaleDownAwsAsg, if_pos h]

theorem scaleDownAwsAsg_state_zero (asg : AsgState) :
    (scaleDownAwsAsg false asg).state.desiredCapacity = 0 ∧
    (scaleDownAwsAsg false asg).state.minSize = 0 ∧
    (scaleDownAwsAsg false asg).state.maxSize = 0 := by
  rw [scaleDownAwsAsg]
  by_cases h : asg.desiredCapacity = 0 ∧ asg.minSize = 0 ∧ asg.maxSize = 0
  · rw [if_pos h]; exact h
  · rw [if_neg h]
    simp

theorem scaleDownGcpNodePool_noop_of_zero (dryRun : Bool) (pool : GcpNodePool)
    (h : pool.initialNodeCount = 0 ∧ gcpCurrentMin pool = 0 ∧ gcpCurrentMax pool = 0) :
    scaleDownGcpNodePool dryRun pool = ⟨false, [], [], pool⟩ := by
  rw [scaleDownGcpNodePool]
  rw [if_pos h]

theorem scaleDownGcpNodePool_state_zero (pool : GcpNodePool) :
    (scaleDownGcpNodePool false pool).state.initialNodeCount = 0 ∧
    gcpCurrentMin (scaleDownGcpNodePool false pool).state = 0 ∧
    gcpCurrentMax (scaleDownGcpNodePool false pool).state = 0 := by
  rw [scaleDownGcpNodePool]
  by_cases h : pool.initialNodeCount = 0 ∧ gcpCurrentMin pool = 0 ∧ gcpCurrentMax pool = 0
  · rw [if_pos h]; exact h
  · rw [if_neg h]
    simp [gcpCurrentMin, gcpCurrentMax]

/-! ## RestoreFromSaved decision lemmas -/

theorem restoreAwsAsg_noop_of_no_tag (dryRun : Bool) (asg : AsgState)
    (h : asg.offHoursTag = none) :
    restoreAwsAsg dryRun asg = ⟨false, [], [], asg⟩ := by
  rw [restoreAwsAsg, h]

theorem restoreAwsAsg_processed_no_tag (asg : AsgState)
    (h : (restoreAwsAsg false asg).processed = true) :
    (restoreAwsAsg false asg).state.offHoursTag = none := by
  revert h
  rw [restoreAwsAsg]
  cases htag : asg.offHoursTag with
  | none => intro h; simp at h
  | some payload =>
    dsimp only
    cases hp : parseScalingValues payload with
    | error e => intro h; simp at h
    | ok t =>
      rcases t with ⟨mx, ds, mn⟩
      intro _
      simp

theorem restoreGcpNodePool_noop_of_no_label (dryRun : Bool) (pool : GcpNodePool)
    (h : pool.offHoursLabel = none) :
    restoreGcpNodePool dryRun pool = ⟨false, [], [], pool⟩ := by
  rw [restoreGcpNodePool, h]

theorem restoreGcpNodePool_processed_no_label (pool : GcpNodePool)
    (h : (restoreGcpNodePool false pool).processed = true) :
    (restoreGcpNodePool false pool).state.offHoursLabel = none := by
  revert h
  rw [restoreGcpNodePool]
  cases htag : pool.offHoursLabel with
  | none => intro h; simp at h
  | some payload =>
    dsimp only
    cases hp : parseScalingValues payload with
    | error e => intro h; simp at h
    | ok t =>
      rcases t with ⟨mx, ds, mn⟩
      intro _
      simp

/-! ## Dry-run / live parity lemmas -/

theorem scaleDownAwsAsg_parity (asg : AsgState) :
    (scaleDownAwsAsg true asg).ops = (scaleDownAwsAsg false asg).ops ∧
    (scaleDownAwsAsg true asg).calls = [] ∧
    (scaleDownAwsAsg true asg).processed = (scaleDownAwsAsg false asg).processed := by
  by_cases hz : asg.desiredCapacity = 0 ∧ asg.minSize = 0 ∧ asg.maxSize = 0
  · simp [scaleDownAwsAsg, hz]
  · simp [scaleDownAwsAsg, hz]

theorem restoreAwsAsg_parity (asg : AsgState) :
    (restoreAwsAsg true asg).ops = (restoreAwsAsg false asg).ops ∧
    (restoreAwsAsg true asg).calls = [] ∧
    (restoreAwsAsg true asg).processed = (restoreAwsAsg false asg).processed := by
  rw [restoreAwsAsg, restoreAwsAsg]
  cases htag : asg.offHoursTag with
  | none => exact ⟨rfl, rfl, rfl⟩
  | some payload =>
    dsimp only
    cases hp : parseScalingValues payload with
    | error e => exact ⟨rfl, rfl, rfl⟩
    | ok t =>
      rcases t with ⟨mx, ds, mn⟩
      simp

theorem processAwsAsg_parity (scaleDown : Bool) (asg : AsgState) :
    (processAwsAsg scaleDown true asg).ops = (processAwsAsg scaleDown false asg).ops ∧
    (processAwsAsg scaleDown true asg).calls = [] ∧
    (processAwsAsg scaleDown true asg).processed = (processAwsAsg scaleDown false asg).processed := by
  cases scaleDown with
  | true =>
    rw [processAwsAsg, processAwsAsg, if_pos rfl, if_pos rfl]
    exact scaleDownAwsAsg_parity asg
  | false =>
    rw [processAwsAsg, processAwsAsg, if_neg (by simp), if_neg (by simp)]
    exact restoreAwsAsg_parity asg

theorem runAwsAsgs_parity (scaleDown : Bool) :
    ∀ asgs : List AsgState,
      (runAwsAsgs scaleDown true asgs).1 = (runAwsAsgs scaleDown false asgs).1 ∧
      (runAwsAsgs scaleDown true asgs).2.1 = [] ∧
      (runAwsAsgs scaleDown true asgs).2.2 = (runAwsAsgs scaleDown false asgs).2.2 := by
  intro asgs
  induction asgs with
  | nil => exact ⟨rfl, rfl, rfl⟩
  | cons a rest ih =>
    obtain ⟨hops, hcalls, hcount⟩ := ih
    obtain ⟨pops, pcalls, pproc⟩ := processAwsAsg_parity scaleDown a
    rw [runAwsAsgs, runAwsAsgs]
    dsimp only
    refine ⟨?_, ?_, ?_⟩
    · rw [pops, hops]
    · rw [pcalls, hcalls]; rfl
    · rw [pproc, hcount]

/-! ## Claim theorems -/

/-- C1: for every valid CapacityTriple (0 ≤ min ≤ desired ≤ max ≤ 1000) and each
style (keyed or dashed), parsing the string produced by formatting the triple in
that style returns exactly the triple (as the source's `(max, desired, min)`
tuple); in particular the keyed payload `MaxSize=10;DesiredCapacity=4;MinSize=2`
parses to min 2, max 10, desired 4, and formatting that triple in the keyed
style yields exactly the original string. -/
theorem c1_codec_roundtrip (mn ds mx : Nat) (style : PayloadStyle)
    (h1 : mn ≤ ds) (h2 : ds ≤ mx) (h3 : mx ≤ 1000) :
    parseScalingValues (formatTriple style (mn : Int) (mx : Int) (ds : Int)) =
      .ok ((mx : Int), (ds : Int), (mn : Int)) ∧
    awsTagValue 2 10 4 = "MaxSize=10;DesiredCapacity=4;MinSize=2".data ∧
    parseScalingValues "MaxSize=10;DesiredCapacity=4;MinSize=2".data = .ok (10, 4, 2) := by
  refine ⟨?_, by decide, by decide⟩
  cases style with
  | keyed => exact parseScalingValues_keyed mn ds mx h1 h2 h3
  | dashed => exact parseScalingValues_dashed mn ds mx h1 h2 h3

/-- Witness for C1 at the concrete triple min 2, desired 4, max 10 in the
keyed style. -/
theorem c1_codec_roundtrip_witness :
    parseScalingValues
        (formatTriple PayloadStyle.keyed ((2 : Nat) : Int) ((10 : Nat) : Int)
          ((4 : Nat) : Int)) =
      .ok (((10 : Nat) : Int), ((4 : Nat) : Int), ((2 : Nat) : Int)) :=
  (c1_codec_roundtrip 2 4 10 PayloadStyle.keyed (by decide) (by decide) (by decide)).1

/-- C10: the dashed parser's token matching is substring-based and
order-independent, so every legacy-order payload `maxsizeX-minsizeY-desiredsizeZ`
whose values form a valid triple (0 ≤ Y ≤ Z ≤ X ≤ 1000) parses successfully to
max X, desired Z, min Y rather than being rejected as unsupported. -/
theorem c10_legacy_dashed_accepted (x y z : Nat)
    (h1 : y ≤ z) (h2 : z ≤ x) (h3 : x ≤ 1000) :
    parseScalingValues (legacyGcpPayload (x : Int) (y : Int) (z : Int)) =
      .ok ((x : Int), (z : Int), (y : Int)) :=
  parseScalingValues_legacy x y z h1 h2 h3

/-- Witness for C10 at the concrete legacy payload `maxsize5-minsize1-desiredsize3`. -/
theorem c10_legacy_dashed_accepted_witness :
    parseScalingValues (legacyGcpPayload ((5 : Nat) : Int) ((1 : Nat) : Int) ((3 : Nat) : Int)) =
      .ok (((5 : Nat) : Int), ((3 : Nat) : Int), ((1 : Nat) : Int)) :=
  c10_legacy_dashed_accepted 5 1 3 (by decide) (by decide) (by decide)

/-- C2: in SaveAndZero mode, a resource whose current min, max and desired are
all zero yields a no-op: `processed = false`, no `ScalingOperation` recorded,
and zero gateway mutation calls (for the AWS ASG and the GCP node-pool paths
alike); and applying the live SaveAndZero action twice in sequence to any
resource yields that same no-op on the second application. -/
theorem c2_save_and_zero_idempotent (dryRun : Bool) (asg asg2 : AsgState)
    (pool pool2 : GcpNodePool)
    (hA : asg.desiredCapacity = 0 ∧ asg.minSize = 0 ∧ asg.maxSize = 0)
    (hG : pool.initialNodeCount = 0 ∧ gcpCurrentMin pool = 0 ∧ gcpCurrentMax pool = 0) :
    scaleDownAwsAsg dryRun asg = ⟨false, [], [], asg⟩ ∧
    scaleDownGcpNodePool dryRun pool = ⟨false, [], [], pool⟩ ∧
    scaleDownAwsAsg false (scaleDownAwsAsg false asg2).state =
      ⟨false, [], [], (scaleDownAwsAsg false asg2).state⟩ ∧
    scaleDownGcpNodePool false (scaleDownGcpNodePool false pool2).state =
      ⟨false, [], [], (scaleDownGcpNodePool false pool2).state⟩ := by
  refine ⟨scaleDownAwsAsg_noop_of_zero dryRun asg hA,
    scaleDownGcpNodePool_noop_of_zero dryRun pool hG, ?_, ?_⟩
  · obtain ⟨z1, z2, z3⟩ := scaleDownAwsAsg_state_zero asg2
    exact scaleDownAwsAsg_noop_of_zero false _ ⟨z1, z2, z3⟩
  · exact scaleDownGcpNodePool_noop_of_zero false _ (scaleDownGcpNodePool_state_zero pool2)

/-- Witness for C2 at a concrete all-zero ASG and node pool (second
application shown for a concrete non-zero ASG and pool). -/
theorem c2_save_and_zero_idempotent_witness :
    scaleDownAwsAsg false ⟨['a'], 0, 0, 0, none⟩ = ⟨false, [], [], ⟨['a'], 0, 0, 0, none⟩⟩ ∧
    scaleDownGcpNodePool false ⟨['p'], false, 0, 0, 0, none, []⟩ =
      ⟨false, [], [], ⟨['p'], false, 0, 0, 0, none, []⟩⟩ :=
  ⟨(c2_save_and_zero_idempotent false ⟨['a'], 0, 0, 0, none⟩ ⟨['a'], 1, 3, 2, none⟩
      ⟨['p'], false, 0, 0, 0, none, []⟩ ⟨['p'], true, 1, 3, 2, none, []⟩
      (by decide) (by decide)).1,
   (c2_save_and_zero_idempotent false ⟨['a'], 0, 0, 0, none⟩ ⟨['a'], 1, 3, 2, none⟩
      ⟨['p'], false, 0, 0, 0, none, []⟩ ⟨['p'], true, 1, 3, 2, none, []⟩
      (by decide) (by decide)).2.1⟩

/-- C3: in RestoreFromSaved mode, a resource with no saved marker payload
yields a no-op: `processed = false`, no mutation, no `ScalingOperation`
recorded (AWS and GCP alike); and since a completed live restore deletes the
marker, re-running RestoreFromSaved after a completed restore yields that
same no-op. -/
theorem c3_restore_idempotent (dryRun : Bool) (asg asg2 : AsgState)
    (pool pool2 : GcpNodePool)
    (hA : asg.offHoursTag = none) (hG : pool.offHoursLabel = none)
    (hA2 : (restoreAwsAsg false asg2).processed = true)
    (hG2 : (restoreGcpNodePool false pool2).processed = true) :
    restoreAwsAsg dryRun asg = ⟨false, [], [], asg⟩ ∧
    restoreGcpNodePool dryRun pool = ⟨false, [], [], pool⟩ ∧
    restoreAwsAsg false (restoreAwsAsg false asg2).state =
      ⟨false, [], [], (restoreAwsAsg false asg2).state⟩ ∧
    restoreGcpNodePool false (restoreGcpNodePool false pool2).state =
      ⟨false, [], [], (restoreGcpNodePool false pool2).state⟩ :=
  ⟨restoreAwsAsg_noop_of_no_tag dryRun asg hA,
   restoreGcpNodePool_noop_of_no_label dryRun pool hG,
   restoreAwsAsg_noop_of_no_tag false _ (restoreAwsAsg_processed_no_tag asg2 hA2),
   restoreGcpNodePool_noop_of_no_label false _
     (restoreGcpNodePool_processed_no_label pool2 hG2)⟩

/-- Witness for C3 at a concrete ASG and node pool without a marker, and a
concrete completed restore (payload `MaxSize=3;DesiredCapacity=2;MinSize=1`). -/
theorem c3_restore_idempotent_witness :
    restoreAwsAsg false ⟨['a'], 0, 0, 0, none⟩ = ⟨false, [], [], ⟨['a'], 0, 0, 0, none⟩⟩ ∧
    restoreAwsAsg false
        (restoreAwsAsg false
          ⟨['a'], 0, 0, 0, some "MaxSize=3;DesiredCapacity=2;MinSize=1".data⟩).state =
      ⟨false, [], [],
        (restoreAwsAsg false
          ⟨['a'], 0, 0, 0, some "MaxSize=3;DesiredCapacity=2;MinSize=1".data⟩).state⟩ :=
  ⟨(c3_restore_idempotent false ⟨['a'], 0, 0, 0, none⟩
      ⟨['a'], 0, 0, 0, some "MaxSize=3;DesiredCapacity=2;MinSize=1".data⟩
      ⟨['p'], false, 0, 0, 0, none, []⟩
      ⟨['p'], false, 0, 0, 0, some "maxsize3-desiredcapacity2-minsize1".data, []⟩
      rfl rfl (by decide) (by decide)).1,
   (c3_restore_idempotent false ⟨['a'], 0, 0, 0, none⟩
      ⟨['a'], 0, 0, 0, some "MaxSize=3;DesiredCapacity=2;MinSize=1".data⟩
      ⟨['p'], false, 0, 0, 0, none, []⟩
      ⟨['p'], false, 0, 0, 0, some "maxsize3-desiredcapacity2-minsize1".data, []⟩
      rfl rfl (by decide) (by decide)).2.2.1⟩

/-- C6: for every poll function that never returns a terminal status and every
positive timeout, the waiter terminates (it is a total function here) and
returns `TimedOut`; in particular with a timeout of one 5-second poll interval
and a poll function that always returns `Running`, it returns `TimedOut`. -/
theorem c6_waiter_times_out (poll : Nat → OpStatus) (timeoutSeconds : Nat)
    (hpoll : ∀ k, poll k ≠ OpStatus.done ∧ poll k ≠ OpStatus.aborting)
    (hpos : 0 < timeoutSeconds) :
    waitForOperation poll timeoutSeconds = .timedOut ∧
    waitForOperation (fun _ => OpStatus.running) 5 = .timedOut := by
  refine ⟨?_, by decide⟩
  have := hpos
  exact waitAux_timedOut poll timeoutSeconds hpoll (timeoutSeconds + 1) 0

/-- Witness for C6 with the always-`Running` poll function and a timeout of
one poll interval (5 seconds). -/
theorem c6_waiter_times_out_witness :
    waitForOperation (fun _ => OpStatus.running) 5 = .timedOut :=
  (c6_waiter_times_out (fun _ => OpStatus.running) 5
    (fun _ => ⟨fun h => OpStatus.noConfusion h, fun h => OpStatus.noConfusion h⟩)
    (by decide)).1

/-- C7: the claim says a first poll of `Aborting` yields a terminal
non-success outcome distinguishable by the caller from the success outcome of
`Done`.  Evaluating the code at the failing input (a poll whose first status
is `ABORTING`, default 600-second timeout) shows the divergence: both the
`DONE` and the `ABORTING` paths execute a bare `return` from a `-> None`
function, so the caller observes exactly the same outcome — even though the
function's own docstring promises an exception when the operation fails.
Both returns are immediate: with a timeout of one poll interval and `Running`
from the second poll on, a first poll of `Aborting` (or `Done`) still returns
rather than timing out. -/
theorem c7_aborting_indistinguishable :
    waitForOperation (fun _ => OpStatus.aborting) 600 = .returned ∧
    waitForOperation (fun _ => OpStatus.done) 600 = .returned ∧
    waitForOperation (fun _ => OpStatus.aborting) 600 =
      waitForOperation (fun _ => OpStatus.done) 600 ∧
    waitForOperation (fun k => if k = 0 then OpStatus.aborting else OpStatus.running) 5 =
      .returned ∧
    waitForOperation (fun k => if k = 0 then OpStatus.done else OpStatus.running) 5 =
      .returned :=
  ⟨by decide, by decide, by decide, by decide, by decide⟩

/-- C9: for every run mode and input snapshot list, the sequence of
`ScalingOperation` records produced by a dry-run execution equals, field for
field, the sequence produced by a live execution with deterministic gateway
responses; the dry run issues no gateway mutations, and the per-resource
processed outcomes are identical in both modes. -/
theorem c9_dry_run_parity (scaleDown : Bool) (asgs : List AsgState) :
    (runAwsAsgs scaleDown true asgs).1 = (runAwsAsgs scaleDown false asgs).1 ∧
    (runAwsAsgs scaleDown true asgs).2.1 = [] ∧
    (runAwsAsgs scaleDown true asgs).2.2 = (runAwsAsgs scaleDown false asgs).2.2 :=
  runAwsAsgs_parity scaleDown asgs

/-- C4: for every payload (keyed or dashed) whose three successfully parsed
values encode min > max, desired outside [min, max], any negative value, or
max > 1000, the full parse yields an `invalidRange` error — a kind distinct
from `missingFields` and `unsupportedFormat` — and no field is silently
clamped (the result is never a success). -/
theorem c4_invalid_range_rejected (payload : List Char) (mx mn ds : Int)
    (hstage : parseStage (payload.map lowerChar) = .ok ⟨mx, mn, ds⟩)
    (hviol : mx < 0 ∨ mn < 0 ∨ ds < 0 ∨ 1000 < mx ∨ mx < mn ∨ ds < mn ∨ mx < ds) :
    parseScalingValues payload = .error (.invalidRange (rangeViolationOf mx mn ds)) ∧
    (ParseError.invalidRange (rangeViolationOf mx mn ds)).isInvalidRange = true ∧
    (ParseError.invalidRange (rangeViolationOf mx mn ds)).isMissingFields = false ∧
    (ParseError.invalidRange (rangeViolationOf mx mn ds)).isUnsupportedFormat = false ∧
    ∀ t, parseScalingValues payload ≠ .ok t := by
  have hmain : parseScalingValues payload =
      .error (.invalidRange (rangeViolationOf mx mn ds)) := by
    rw [parseScalingValues, hstage]
    dsimp only
    rw [validateScalingValues_error_of mx mn ds hviol]
  refine ⟨hmain, rfl, rfl, rfl, ?_⟩
  intro t h
  rw [hmain] at h
  exact Except.noConfusion h

/-- Witness for C4 at the concrete keyed payload
`maxsize=5;minsize=9;desiredcapacity=7` (min 9 above max 5). -/
theorem c4_invalid_range_rejected_witness :
    parseScalingValues "maxsize=5;minsize=9;desiredcapacity=7".data =
      .error (.invalidRange (rangeViolationOf 5 9 7)) :=
  (c4_invalid_range_rejected "maxsize=5;minsize=9;desiredcapacity=7".data 5 9 7
    (by decide) (by decide)).1

/-! ## Field-presence characterization of the two parsers -/

theorem setFieldOpt_get_none_iff (v : PVals) (o : Option (ScalingField × Int))
    (f : ScalingField) :
    pvalsGet f (setFieldOpt v o) = none ↔
      (pvalsGet f v = none ∧ ∀ n, o ≠ some (f, n)) := by
  rcases o with _ | ⟨gf, n⟩
  · simp [setFieldOpt]
  · by_cases hgf : gf = f
    · subst hgf
      have hset : pvalsGet gf (setFieldOpt v (some (gf, n))) = some n := by
        rcases gf <;> rfl
      rw [hset]
      apply iff_of_false
      · simp
      · rintro ⟨_, h2⟩
        exact h2 n rfl
    · have hset : pvalsGet f (setFieldOpt v (some (gf, n))) = pvalsGet f v := by
        rcases gf <;> rcases f <;> first | rfl | exact absurd rfl hgf
      rw [hset]
      constructor
      · intro h
        refine ⟨h, fun n' he => hgf ?_⟩
        cases he
        rfl
      · rintro ⟨h1, _⟩
        exact h1

theorem foldl_setFieldOpt_get_none (g : List Char → Option (ScalingField × Int))
    (f : ScalingField) :
    ∀ (l : List (List Char)) (v : PVals),
      pvalsGet f (l.foldl (fun vv p => setFieldOpt vv (g p)) v) = none ↔
        (pvalsGet f v = none ∧ ∀ p ∈ l, ∀ n, g p ≠ some (f, n)) := by
  intro l
  induction l with
  | nil => intro v; simp
  | cons p rest ih =>
    intro v
    rw [List.foldl_cons, ih, setFieldOpt_get_none_iff]
    constructor
    · rintro ⟨⟨h1, h2⟩, h3⟩
      refine ⟨h1, fun q hq n => ?_⟩
      rcases List.mem_cons.mp hq with h | h
      · subst h; exact h2 n
      · exact h3 q h n
    · rintro ⟨h1, h2⟩
      exact ⟨⟨h1, fun n => h2 p (List.mem_cons_self p rest) n⟩,
        fun q hq n => h2 q (List.mem_cons_of_mem p hq) n⟩

theorem keyedFieldFound_eq_false_iff (f : ScalingField) (value : List Char) :
    keyedFieldFound f value = false ↔
      ∀ p ∈ splitOnC ';' value, ∀ n, awsParamField p ≠ some (f, n) := by
  rw [keyedFieldFound, List.any_eq_false]
  constructor
  · intro h p hp n he
    have := h p hp
    rw [he] at this
    simp at this
  · intro h p hp
    rcases hq : awsParamField p with _ | ⟨g, n⟩
    · simp
    · have : g ≠ f := fun hgf => h p hp n (by rw [hq, hgf])
      simp [this]

theorem parseAwsFormat_max_none_iff (value : List Char) :
    ((splitOnC ';' value).foldl awsStep {}).max? = none ↔
      keyedFieldFound ScalingField.maxSize value = false := by
  have heq : awsStep = fun vv p => setFieldOpt vv (awsParamField p) := rfl
  rw [heq, keyedFieldFound_eq_false_iff]
  have := foldl_setFieldOpt_get_none awsParamField ScalingField.maxSize
    (splitOnC ';' value) {}
  rw [show ((splitOnC ';' value).foldl (fun vv p => setFieldOpt vv (awsParamField p))
      ({} : PVals)).max? =
    pvalsGet ScalingField.maxSize
      ((splitOnC ';' value).foldl (fun vv p => setFieldOpt vv (awsParamField p)) {}) from rfl]
  rw [this]
  simp [pvalsGet]

theorem parseAwsFormat_min_none_iff (value : List Char) :
    ((splitOnC ';' value).foldl awsStep {}).min? = none ↔
      keyedFieldFound ScalingField.minSize value = false := by
  have heq : awsStep = fun vv p => setFieldOpt vv (awsParamField p) := rfl
  rw [heq, keyedFieldFound_eq_false_iff]
  have := foldl_setFieldOpt_get_none awsParamField ScalingField.minSize
    (splitOnC ';' value) {}
  rw [show ((splitOnC ';' value).foldl (fun vv p => setFieldOpt vv (awsParamField p))
      ({} : PVals)).min? =
    pvalsGet ScalingField.minSize
      ((splitOnC ';' value).foldl (fun vv p => setFieldOpt vv (awsParamField p)) {}) from rfl]
  rw [this]
  simp [pvalsGet]

theorem parseAwsFormat_desired_none_iff (value : List Char) :
    ((splitOnC ';' value).foldl awsStep {}).desired? = none ↔
      keyedFieldFound ScalingField.desiredCapacity value = false := by
  have heq : awsStep = fun vv p => setFieldOpt vv (awsParamField p) := rfl
  rw [heq, keyedFieldFound_eq_false_iff]
  have := foldl_setFieldOpt_get_none awsParamField ScalingField.desiredCapacity
    (splitOnC ';' value) {}
  rw [show ((splitOnC ';' value).foldl (fun vv p => setFieldOpt vv (awsParamField p))
      ({} : PVals)).desired? =
    pvalsGet ScalingField.desiredCapacity
      ((splitOnC ';' value).foldl (fun vv p => setFieldOpt vv (awsParamField p)) {}) from rfl]
  rw [this]
  simp [pvalsGet]

theorem parseAwsFormat_missing_iff (value : List Char) :
    (∃ l, parseAwsFormat value = .error (.missingFields l)) ↔
      (keyedFieldFound ScalingField.maxSize value = false ∨
       keyedFieldFound ScalingField.minSize value = false ∨
       keyedFieldFound ScalingField.desiredCapacity value = false) := by
  rw [parseAwsFormat]
  rcases hm : ((splitOnC ';' value).foldl awsStep {}).max? with _ | mx <;>
    rcases hn : ((splitOnC ';' value).foldl awsStep {}).min? with _ | mn <;>
      rcases hd : ((splitOnC ';' value).foldl awsStep {}).desired? with _ | ds
  · exact iff_of_true ⟨_, rfl⟩ (Or.inl ((parseAwsFormat_max_none_iff value).mp hm))
  · exact iff_of_true ⟨_, rfl⟩ (Or.inl ((parseAwsFormat_max_none_iff value).mp hm))
  · exact iff_of_true ⟨_, rfl⟩ (Or.inl ((parseAwsFormat_max_none_iff value).mp hm))
  · exact iff_of_true ⟨_, rfl⟩ (Or.inl ((parseAwsFormat_max_none_iff value).mp hm))
  · exact iff_of_true ⟨_, rfl⟩ (Or.inr (Or.inl ((parseAwsFormat_min_none_iff value).mp hn)))
  · exact iff_of_true ⟨_, rfl⟩ (Or.inr (Or.inl ((parseAwsFormat_min_none_iff value).mp hn)))
  · exact iff_of_true ⟨_, rfl⟩
      (Or.inr (Or.inr ((parseAwsFormat_desired_none_iff value).mp hd)))
  · apply iff_of_false
    · rintro ⟨l, hl⟩
      exact Except.noConfusion hl
    · rintro (h | h | h)
      · rw [(parseAwsFormat_max_none_iff value).mpr h] at hm
        exact Option.noConfusion hm
      · rw [(parseAwsFormat_min_none_iff value).mpr h] at hn
        exact Option.noConfusion hn
      · rw [(parseAwsFormat_desired_none_iff value).mpr h] at hd
        exact Option.noConfusion hd

theorem gcpFold_eq_pure :
    ∀ (parts : List (List Char)) (v : PVals),
      (∀ p ∈ parts, ∀ g, gcpPartField p ≠ some (g, none)) →
      gcpFold v parts =
        .ok (parts.foldl (fun vv p => setFieldOpt vv (gcpParamValue p)) v) := by
  intro parts
  induction parts with
  | nil => intro v _; rfl
  | cons p rest ih =>
    intro v h
    have hrest : ∀ q ∈ rest, ∀ g, gcpPartField q ≠ some (g, none) :=
      fun q hq => h q (List.mem_cons_of_mem p hq)
    rw [gcpFold, List.foldl_cons]
    rcases hp : gcpPartField p with _ | ⟨g, o⟩
    · rw [gcpStep, hp]
      dsimp only
      rw [show gcpParamValue p = none from by rw [gcpParamValue, hp]]
      exact ih v hrest
    · rcases o with _ | n
      · exact absurd hp (h p (List.mem_cons_self p rest) g)
      · rcases g with _ | _ | _
        · rw [gcpStep, hp]
          dsimp only
          rw [show gcpParamValue p = some (ScalingField.maxSize, n) from by
            rw [gcpParamValue, hp]]
          exact ih _ hrest
        · rw [gcpStep, hp]
          dsimp only
          rw [show gcpParamValue p = some (ScalingField.minSize, n) from by
            rw [gcpParamValue, hp]]
          exact ih _ hrest
        · rw [gcpStep, hp]
          dsimp only
          rw [show gcpParamValue p = some (ScalingField.desiredCapacity, n) from by
            rw [gcpParamValue, hp]]
          exact ih _ hrest

theorem dashedFieldFound_eq_false_iff (f : ScalingField) (value : List Char) :
    dashedFieldFound f value = false ↔
      ∀ p ∈ splitOnC '-' value, ∀ n, gcpParamValue p ≠ some (f, n) := by
  rw [dashedFieldFound, List.any_eq_false]
  apply forall₂_congr
  intro p _
  rcases hq : gcpPartField p with _ | ⟨g, o⟩
  · apply iff_of_true
    · simp
    · intro n he
      rw [gcpParamValue, hq] at he
      exact Option.noConfusion he
  · rcases o with _ | m
    · apply iff_of_true
      · simp
      · intro n he
        rw [gcpParamValue, hq] at he
        exact Option.noConfusion he
    · have hv : gcpParamValue p = some (g, m) := by rw [gcpParamValue, hq]
      constructor
      · intro h n he
        rw [hv] at he
        have hgf : g = f := by cases he; rfl
        apply h
        subst hgf
        simp
      · intro h hdec
        simp only [decide_eq_true_eq] at hdec
        have hgf : g = f := hdec
        exact h m (by rw [hv, hgf])

theorem gcpPureFold_max_none_iff (value : List Char) :
    ((splitOnC '-' value).foldl (fun vv p => setFieldOpt vv (gcpParamValue p))
        ({} : PVals)).max? = none ↔
      dashedFieldFound ScalingField.maxSize value = false := by
  rw [dashedFieldFound_eq_false_iff]
  rw [show ((splitOnC '-' value).foldl (fun vv p => setFieldOpt vv (gcpParamValue p))
      ({} : PVals)).max? =
    pvalsGet ScalingField.maxSize
      ((splitOnC '-' value).foldl (fun vv p => setFieldOpt vv (gcpParamValue p)) {})
    from rfl]
  rw [foldl_setFieldOpt_get_none gcpParamValue ScalingField.maxSize (splitOnC '-' value) {}]
  simp [pvalsGet]

theorem gcpPureFold_min_none_iff (value : List Char) :
    ((splitOnC '-' value).foldl (fun vv p => setFieldOpt vv (gcpParamValue p))
        ({} : PVals)).min? = none ↔
      dashedFieldFound ScalingField.minSize value = false := by
  rw [dashedFieldFound_eq_false_iff]
  rw [show ((splitOnC '-' value).foldl (fun vv p => setFieldOpt vv (gcpParamValue p))
      ({} : PVals)).min? =
    pvalsGet ScalingField.minSize
      ((splitOnC '-' value).foldl (fun vv p => setFieldOpt vv (gcpParamValue p)) {})
    from rfl]
  rw [foldl_setFieldOpt_get_none gcpParamValue ScalingField.minSize (splitOnC '-' value) {}]
  simp [pvalsGet]

theorem gcpPureFold_desired_none_iff (value : List Char) :
    ((splitOnC '-' value).foldl (fun vv p => setFieldOpt vv (gcpParamValue p))
        ({} : PVals)).desired? = none ↔
      dashedFieldFound ScalingField.desiredCapacity value = false := by
  rw [dashedFieldFound_eq_false_iff]
  rw [show ((splitOnC '-' value).foldl (fun vv p => setFieldOpt vv (gcpParamValue p))
      ({} : PVals)).desired? =
    pvalsGet ScalingField.desiredCapacity
      ((splitOnC '-' value).foldl (fun vv p => setFieldOpt vv (gcpParamValue p)) {})
    from rfl]
  rw [foldl_setFieldOpt_get_none gcpParamValue ScalingField.desiredCapacity
    (splitOnC '-' value) {}]
  simp [pvalsGet]

theorem parseGcpFormat_missing_iff (value : List Char)
    (hnoerr : ∀ p ∈ splitOnC '-' value, ∀ g, gcpPartField p ≠ some (g, none)) :
    (∃ l, parseGcpFormat value = .error (.missingFields l)) ↔
      (dashedFieldFound ScalingField.maxSize value = false ∨
       dashedFieldFound ScalingField.minSize value = false ∨
       dashedFieldFound ScalingField.desiredCapacity value = false) := by
  rw [parseGcpFormat, gcpFold_eq_pure (splitOnC '-' value) {} hnoerr]
  dsimp only
  rcases hm : ((splitOnC '-' value).foldl (fun vv p => setFieldOpt vv (gcpParamValue p))
      ({} : PVals)).max? with _ | mx <;>
    rcases hn : ((splitOnC '-' value).foldl (fun vv p => setFieldOpt vv (gcpParamValue p))
        ({} : PVals)).min? with _ | mn <;>
      rcases hd : ((splitOnC '-' value).foldl (fun vv p => setFieldOpt vv (gcpParamValue p))
          ({} : PVals)).desired? with _ | ds
  · exact iff_of_true ⟨_, rfl⟩ (Or.inl ((gcpPureFold_max_none_iff value).mp hm))
  · exact iff_of_true ⟨_, rfl⟩ (Or.inl ((gcpPureFold_max_none_iff value).mp hm))
  · exact iff_of_true ⟨_, rfl⟩ (Or.inl ((gcpPureFold_max_none_iff value).mp hm))
  · exact iff_of_true ⟨_, rfl⟩ (Or.inl ((gcpPureFold_max_none_iff value).mp hm))
  · exact iff_of_true ⟨_, rfl⟩ (Or.inr (Or.inl ((gcpPureFold_min_none_iff value).mp hn)))
  · exact iff_of_true ⟨_, rfl⟩ (Or.inr (Or.inl ((gcpPureFold_min_none_iff value).mp hn)))
  · exact iff_of_true ⟨_, rfl⟩
      (Or.inr (Or.inr ((gcpPureFold_desired_none_iff value).mp hd)))
  · apply iff_of_false
    · rintro ⟨l, hl⟩
      exact Except.noConfusion hl
    · rintro (h | h | h)
      · rw [(gcpPureFold_max_none_iff value).mpr h] at hm
        exact Option.noConfusion hm
      · rw [(gcpPureFold_min_none_iff value).mpr h] at hn
        exact Option.noConfusion hn
      · rw [(gcpPureFold_desired_none_iff value).mpr h] at hd
        exact Option.noConfusion hd

/-- C5 counterexample: the claim says a payload in which a field occurs more
than once is rejected with `missingFields`; in fact both parsers accept such
payloads, letting the later occurrence overwrite the earlier one (keyed:
max 5 then max 10 parses to max 10; dashed: max 5 then max 9 parses to max 9). -/
theorem c5_exactly_once_counterexample :
    parseScalingValues "maxsize=5;maxsize=10;minsize=1;desiredcapacity=3".data =
      .ok (10, 3, 1) ∧
    parseScalingValues "maxsize5-maxsize9-minsize1-desiredcapacity3".data =
      .ok (9, 3, 1) :=
  ⟨by decide, by decide⟩

/-- C5 (amended): parsing fails with a `missingFields` error exactly when at
least one of the max/min/desired fields was never successfully found — at
least once, not exactly once (for the dashed parser, among payloads whose
matched parts all extract digits successfully, since a failed extraction is a
different, uncaught error).  A payload in which a field occurs more than once
is not rejected: the last occurrence overwrites the earlier ones, as the two
concrete duplicate payloads show. -/
theorem c5_missing_fields_amended (v w : List Char)
    (hnoerr : ∀ p ∈ splitOnC '-' w, ∀ g, gcpPartField p ≠ some (g, none)) :
    ((∃ l, parseAwsFormat v = .error (.missingFields l)) ↔
      (keyedFieldFound ScalingField.maxSize v = false ∨
       keyedFieldFound ScalingField.minSize v = false ∨
       keyedFieldFound ScalingField.desiredCapacity v = false)) ∧
    ((∃ l, parseGcpFormat w = .error (.missingFields l)) ↔
      (dashedFieldFound ScalingField.maxSize w = false ∨
       dashedFieldFound ScalingField.minSize w = false ∨
       dashedFieldFound ScalingField.desiredCapacity w = false)) ∧
    parseScalingValues "maxsize=5;maxsize=10;minsize=1;desiredcapacity=3".data =
      .ok (10, 3, 1) ∧
    parseScalingValues "maxsize5-maxsize9-minsize1-desiredcapacity3".data =
      .ok (9, 3, 1) :=
  ⟨parseAwsFormat_missing_iff v, parseGcpFormat_missing_iff w hnoerr, by decide, by decide⟩

/-- Witness for the amended C5 at concrete keyed and dashed payloads. -/
theorem c5_missing_fields_amended_witness :
    (∃ l, parseAwsFormat "maxsize=3".data = .error (.missingFields l)) ↔
      (keyedFieldFound ScalingField.maxSize "maxsize=3".data = false ∨
       keyedFieldFound ScalingField.minSize "maxsize=3".data = false ∨
       keyedFieldFound ScalingField.desiredCapacity "maxsize=3".data = false) :=
  (c5_missing_fields_amended "maxsize=3".data "maxsize3-minsize1-desiredcapacity2".data
    (by decide)).1

/-- C8 counterexample: in the live restore flow the subordinate instance-group
resize is issued but its operation is never awaited — the marker-deleting
label update follows it directly, with no wait between them, so the claim
that each step is awaited to completion before the next begins is false.
Concretely: event 4 of the trace is the instance-group resize and event 5 is
the label update, not a wait. -/
theorem c8_await_counterexample :
    everyStepAwaited
      (restoreGcpNodePool false
        ⟨"np".data, true, 1, 2, 1, some "MaxSize=2;DesiredCapacity=1;MinSize=1".data,
          ["https://www.googleapis.com/compute/v1/projects/p/zones/z1/instanceGroupManagers/ig1".data]⟩).events
      = false ∧
    (restoreGcpNodePool false
        ⟨"np".data, true, 1, 2, 1, some "MaxSize=2;DesiredCapacity=1;MinSize=1".data,
          ["https://www.googleapis.com/compute/v1/projects/p/zones/z1/instanceGroupManagers/ig1".data]⟩).events.get? 4
      = some (.resizeInstanceGroup "z1".data "ig1".data 1) ∧
    (restoreGcpNodePool false
        ⟨"np".data, true, 1, 2, 1, some "MaxSize=2;DesiredCapacity=1;MinSize=1".data,
          ["https://www.googleapis.com/compute/v1/projects/p/zones/z1/instanceGroupManagers/ig1".data]⟩).events.get? 5
      = some (.updateNodePoolLabels none) ∧
    GcpEvent.updateNodePoolLabels none ≠ GcpEvent.waitForOp := by
  refine ⟨by decide, by decide, by decide, by decide⟩

/-- C8 (amended): within one resource's live action the steps execute strictly
sequentially in the order save-payload write, resize-size, resize-autoscaling,
subordinate instance-group resize, marker deletion; the label writes, the
size change and the autoscaling change are each awaited to completion before
the next step begins, and the subordinate instance-group resize is issued
after them (and, in the restore flow, before the marker deletion) but its
long-running operation is not awaited. -/
theorem c8_sequencing_amended (pool pr : GcpNodePool) (url payload : List Char)
    (mx ds mn : Int)
    (hnz : ¬(pool.initialNodeCount = 0 ∧ gcpCurrentMin pool = 0 ∧ gcpCurrentMax pool = 0))
    (hurl1 : pool.instanceGroupUrls = [url])
    (hlen : ¬((splitOnC '/' url).length < 9))
    (hlab : pr.offHoursLabel = some payload)
    (hparse : parseScalingValues payload = .ok (mx, ds, mn))
    (hds : 0 < ds)
    (hurl2 : pr.instanceGroupUrls = [url]) :
    (scaleDownGcpNodePool false pool).events =
      [GcpEvent.updateNodePoolLabels (some (gcpLabelValue (gcpCurrentMin pool)
          (gcpCurrentMax pool) pool.initialNodeCount)), .waitForOp,
       .setNodePoolSize 0, .waitForOp,
       .setNodePoolAutoscaling false 0 0, .waitForOp,
       .resizeInstanceGroup (((splitOnC '/' url).get? 8).getD [])
         ((splitOnC '/' url).getLast!) 0] ∧
    (restoreGcpNodePool false pr).events =
      [GcpEvent.setNodePoolSize ds, .waitForOp,
       .setNodePoolAutoscaling true mn mx, .waitForOp,
       .resizeInstanceGroup (((splitOnC '/' url).get? 8).getD [])
         ((splitOnC '/' url).getLast!) ds,
       .updateNodePoolLabels none, .waitForOp] := by
  have hsingle0 : resizeSingleInstanceGroup false url 0 =
      [.resizeInstanceGroup (((splitOnC '/' url).get? 8).getD [])
        ((splitOnC '/' url).getLast!) 0] := by
    rw [resizeSingleInstanceGroup, if_neg hlen]
    simp
  have hsingleds : resizeSingleInstanceGroup false url ds =
      [.resizeInstanceGroup (((splitOnC '/' url).get? 8).getD [])
        ((splitOnC '/' url).getLast!) ds] := by
    rw [resizeSingleInstanceGroup, if_neg hlen]
    simp
  have hexec0 : executeGcpScaling false 0 0 0 false none =
      [GcpEvent.setNodePoolSize 0, .waitForOp, .setNodePoolAutoscaling false 0 0,
        .waitForOp] := by decide
  have hb := parseScalingValues_ok_bounds hparse
  constructor
  · rw [scaleDownGcpNodePool]
    rw [if_neg hnz]
    dsimp only
    rw [if_neg (by simp : ¬(false = true))]
    rw [hexec0, resizeInstanceGroups, hurl1]
    simp [hsingle0]
  · rw [restoreGcpNodePool, hlab]
    dsimp only
    rw [hparse]
    dsimp only
    rw [if_neg (by simp : ¬(false = true))]
    dsimp only
    rw [executeGcpScaling]
    rw [if_neg (by omega : ¬(mn = 0 ∧ mx = 0))]
    rw [if_pos hds, resizeInstanceGroups, hurl2]
    simp [hsingleds]

/-- Witness for the amended C8 at a concrete node pool, saved payload
`MaxSize=2;DesiredCapacity=1;MinSize=1`, and a well-formed instance-group URL. -/
theorem c8_sequencing_amended_witness :
    (restoreGcpNodePool false
        ⟨"np".data, true, 1, 2, 1, some "MaxSize=2;DesiredCapacity=1;MinSize=1".data,
          ["https://www.googleapis.com/compute/v1/projects/p/zones/z1/instanceGroupManagers/ig1".data]⟩).events =
      [GcpEvent.setNodePoolSize 1, .waitForOp,
       .setNodePoolAutoscaling true 1 2, .waitForOp,
       .resizeInstanceGroup
         (((splitOnC '/' "https://www.googleapis.com/compute/v1/projects/p/zones/z1/instanceGroupManagers/ig1".data).get? 8).getD [])
         ((splitOnC '/' "https://www.googleapis.com/compute/v1/projects/p/zones/z1/instanceGroupManagers/ig1".data).getLast!) 1,
       .updateNodePoolLabels none, .waitForOp] :=
  (c8_sequencing_amended
    ⟨"np2".data, true, 1, 2, 1, none,
      ["https://www.googleapis.com/compute/v1/projects/p/zones/z1/instanceGroupManagers/ig1".data]⟩
    ⟨"np".data, true, 1, 2, 1, some "MaxSize=2;DesiredCapacity=1;MinSize=1".data,
      ["https://www.googleapis.com/compute/v1/projects/p/zones/z1/instanceGroupManagers/ig1".data]⟩
    "https://www.googleapis.com/compute/v1/projects/p/zones/z1/instanceGroupManagers/ig1".data
    "MaxSize=2;DesiredCapacity=1;MinSize=1".data 2 1 1
    (by decide) rfl (by decide) rfl (by decide) (by decide) rfl).2
